import Mathlib

/-!
Verification development for the `datapath` library: dotted/indexed path
access into recursive list/dict structures.

The definitions below are a shallow embedding of `src/datapath/_base.py`,
`src/datapath/types.py` and `src/datapath/folding.py` (the current revision
of the library; `src/datapath/__init__.py` holds an older duplicate of the
same functions and is not the authority for the claims, whose sources all
point at `_base.py` / `folding.py`).

Python values are modelled by the inductive `Value`:
* `vint`/`vstr`/`vnone` are leaf values (enough leaf shapes for every claim),
* `vlist` is a Python `list`,
* `vdict` is a Python `dict` with string keys, modelled as an
  insertion-ordered association list (CPython dicts preserve insertion
  order; the claims' inputs never contain duplicate keys),
* `vpair` is a Python 2-tuple, used by `folding.py`'s `PartialList`
  entries `(index, value)`.

Fallible Python code is modelled with `Except PyErr`; `PyErr` mirrors the
exception taxonomy of `types.py` plus the built-in exceptions the code can
raise (`KeyError`/`IndexError` as `keyError`/`indexError`, `ValueError`,
`TypeError`, `RuntimeError`).  In-place mutation of the caller's tree
(`put`/`delete`/`discard`) is modelled by returning the updated tree.
-/

namespace Datapath

/-- Exception kinds raised by the source.  Subclassing in `types.py`:
`TypeValidationError`, `TypeMismatchValidationError` and
`InvalidIterationError` are `ValidationError`s; `PathLookupError` is both a
`DatapathError` and a `LookupError`; `keyError`/`indexError` are the plain
built-in `LookupError`s; `valueError`, `typeError` and `runtimeError` are
the plain built-ins. -/
inductive PyErr where
  | validationError (msg : String)
  | typeValidationError (msg : String)
  | typeMismatchValidationError (msg : String)
  | invalidIterationError (msg : String)
  | pathLookupError (msg : String)
  | keyError (msg : String)
  | indexError (msg : String)
  | valueError (msg : String)
  | typeError (msg : String)
  | runtimeError (msg : String)
  deriving DecidableEq, Repr

/-- `isinstance(e, ValidationError)` over the hierarchy of `types.py`. -/
def PyErr.isValidationError : PyErr → Bool
  | .validationError _ => true
  | .typeValidationError _ => true
  | .typeMismatchValidationError _ => true
  | .invalidIterationError _ => true
  | _ => false

/-- `isinstance(e, LookupError)`: `KeyError`, `IndexError` and
`PathLookupError` (which subclasses `LookupError` in `types.py`). -/
def PyErr.isLookupError : PyErr → Bool
  | .keyError _ => true
  | .indexError _ => true
  | .pathLookupError _ => true
  | _ => false

/-- Python values (see the header comment). -/
inductive Value where
  | vint (n : Int)
  | vstr (s : String)
  | vnone
  | vlist (xs : List Value)
  | vdict (entries : List (String × Value))
  | vpair (a b : Value)
  deriving Repr

mutual

/-- Decidable equality for `Value` (the nested inductive defeats `deriving`). -/
def Value.decEq : (a b : Value) → Decidable (a = b)
  | .vint x, .vint y =>
    if h : x = y then .isTrue (by rw [h]) else .isFalse (fun e => h (by injection e))
  | .vstr x, .vstr y =>
    if h : x = y then .isTrue (by rw [h]) else .isFalse (fun e => h (by injection e))
  | .vnone, .vnone => .isTrue rfl
  | .vlist xs, .vlist ys =>
    match Value.listDecEq xs ys with
    | .isTrue h => .isTrue (by rw [h])
    | .isFalse h => .isFalse (fun e => h (by injection e))
  | .vdict xs, .vdict ys =>
    match Value.entriesDecEq xs ys with
    | .isTrue h => .isTrue (by rw [h])
    | .isFalse h => .isFalse (fun e => h (by injection e))
  | .vpair a b, .vpair c d =>
    match Value.decEq a c, Value.decEq b d with
    | .isTrue h1, .isTrue h2 => .isTrue (by rw [h1, h2])
    | .isFalse h1, _ => .isFalse (fun e => h1 (by injection e))
    | _, .isFalse h2 => .isFalse (fun e => h2 (by injection e))
  | .vint _, .vstr _ => .isFalse (by intro h; exact Value.noConfusion h)
  | .vint _, .vnone => .isFalse (by intro h; exact Value.noConfusion h)
  | .vint _, .vlist _ => .isFalse (by intro h; exact Value.noConfusion h)
  | .vint _, .vdict _ => .isFalse (by intro h; exact Value.noConfusion h)
  | .vint _, .vpair _ _ => .isFalse (by intro h; exact Value.noConfusion h)
  | .vstr _, .vint _ => .isFalse (by intro h; exact Value.noConfusion h)
  | .vstr _, .vnone => .isFalse (by intro h; exact Value.noConfusion h)
  | .vstr _, .vlist _ => .isFalse (by intro h; exact Value.noConfusion h)
  | .vstr _, .vdict _ => .isFalse (by intro h; exact Value.noConfusion h)
  | .vstr _, .vpair _ _ => .isFalse (by intro h; exact Value.noConfusion h)
  | .vnone, .vint _ => .isFalse (by intro h; exact Value.noConfusion h)
  | .vnone, .vstr _ => .isFalse (by intro h; exact Value.noConfusion h)
  | .vnone, .vlist _ => .isFalse (by intro h; exact Value.noConfusion h)
  | .vnone, .vdict _ => .isFalse (by intro h; exact Value.noConfusion h)
  | .vnone, .vpair _ _ => .isFalse (by intro h; exact Value.noConfusion h)
  | .vlist _, .vint _ => .isFalse (by intro h; exact Value.noConfusion h)
  | .vlist _, .vstr _ => .isFalse (by intro h; exact Value.noConfusion h)
  | .vlist _, .vnone => .isFalse (by intro h; exact Value.noConfusion h)
  | .vlist _, .vdict _ => .isFalse (by intro h; exact Value.noConfusion h)
  | .vlist _, .vpair _ _ => .isFalse (by intro h; exact Value.noConfusion h)
  | .vdict _, .vint _ => .isFalse (by intro h; exact Value.noConfusion h)
  | .vdict _, .vstr _ => .isFalse (by intro h; exact Value.noConfusion h)
  | .vdict _, .vnone => .isFalse (by intro h; exact Value.noConfusion h)
  | .vdict _, .vlist _ => .isFalse (by intro h; exact Value.noConfusion h)
  | .vdict _, .vpair _ _ => .isFalse (by intro h; exact Value.noConfusion h)
  | .vpair _ _, .vint _ => .isFalse (by intro h; exact Value.noConfusion h)
  | .vpair _ _, .vstr _ => .isFalse (by intro h; exact Value.noConfusion h)
  | .vpair _ _, .vnone => .isFalse (by intro h; exact Value.noConfusion h)
  | .vpair _ _, .vlist _ => .isFalse (by intro h; exact Value.noConfusion h)
  | .vpair _ _, .vdict _ => .isFalse (by intro h; exact Value.noConfusion h)

/-- Decidable equality for lists of `Value`. -/
def Value.listDecEq : (xs ys : List Value) → Decidable (xs = ys)
  | [], [] => .isTrue rfl
  | [], _ :: _ => .isFalse (by intro h; exact List.noConfusion h)
  | _ :: _, [] => .isFalse (by intro h; exact List.noConfusion h)
  | x :: xs, y :: ys =>
    match Value.decEq x y, Value.listDecEq xs ys with
    | .isTrue h1, .isTrue h2 => .isTrue (by rw [h1, h2])
    | .isFalse h1, _ => .isFalse (fun e => h1 (by injection e))
    | _, .isFalse h2 => .isFalse (fun e => h2 (by injection e))

/-- Decidable equality for dict entry lists. -/
def Value.entriesDecEq : (xs ys : List (String × Value)) → Decidable (xs = ys)
  | [], [] => .isTrue rfl
  | [], _ :: _ => .isFalse (by intro h; exact List.noConfusion h)
  | _ :: _, [] => .isFalse (by intro h; exact List.noConfusion h)
  | (k, x) :: xs, (k', y) :: ys =>
    if h0 : k = k' then
      match Value.decEq x y, Value.entriesDecEq xs ys with
      | .isTrue h1, .isTrue h2 => .isTrue (by rw [h0, h1, h2])
      | .isFalse h1, _ =>
        .isFalse (fun e => h1 (by injection e with e1 e2; injection e1))
      | _, .isFalse h2 => .isFalse (fun e => h2 (by injection e))
    else .isFalse (fun e => h0 (by injection e with e1 e2; injection e1))

end

instance : DecidableEq Value := Value.decEq

/-- `isinstance(obj, _collection_types)` for `_collection_types = (list, dict)`. -/
def Value.isCollection : Value → Bool
  | .vlist _ => true
  | .vdict _ => true
  | _ => false

/-- `type(obj).__name__`, used in error messages. -/
def Value.typeName : Value → String
  | .vint _ => "int"
  | .vstr _ => "str"
  | .vnone => "NoneType"
  | .vlist _ => "list"
  | .vdict _ => "dict"
  | .vpair _ _ => "tuple"

/-!
## Path grammar (`_base.py` lines 28-34)

```
_key_pattern = '(?P<part>[^[.]+)'
_number_pattern = r'-?[0-9]*'
_range_parts_pattern = '(?::' + _number_pattern + '){0,2}'
_index_pattern = r'(?P<part>\[' + _number_pattern + _range_parts_pattern + r'\])'
_key_with_index_pattern = _key_pattern + _index_pattern + '?'
_part_pattern = _key_with_index_pattern + '|' + _index_pattern
_path_re = re.compile('^(?:' + _part_pattern + r')(?:\.' + _part_pattern + ')*$')
```

Because `|` has the lowest precedence inside the non-capturing group, the
repeated tail is `(?:\.KEY IDX?|IDX)` - the literal dot belongs only to the
key alternative, so bracketed segments chain without dots.  The language is
`FIRST TAIL*` with `FIRST = KEY IDX? | IDX` and `TAIL = '.' KEY IDX? | IDX`,
where `KEY = [^[.]+` and `IDX = '[' NUM (':' NUM){0,2} ']'` with
`NUM = -?[0-9]*`.  Tokenisation is deterministic: a key cannot contain `[`
or `.`, an index always starts at a `[` and ends at the first `]`, so the
backtracking regex engine accepts exactly the strings this recursive lexer
accepts, and `match.captures('part')` lists the tokens in order (a
`KEY IDX` part contributes two captures).  One Python quirk is kept: `$`
also matches just before a single trailing newline, so a string whose last
character is `'\n'` is accepted whenever the prefix without it is.
-/

/-- A single `part` capture of `_path_re`: a key token or a full bracketed
token (brackets included), as a character list. -/
inductive RawTok where
  | key (s : List Char)
  | idx (s : List Char)
  deriving DecidableEq, Repr

/-- A character allowed in `_key_pattern = [^[.]+`. -/
def isKeyChar (c : Char) : Bool := c != '[' && c != '.'

/-- `NUM = -?[0-9]*` with maximal munch; total, may consume nothing. -/
def lexNum (cs : List Char) : List Char × List Char :=
  match cs with
  | [] => ([], [])
  | c :: rest =>
    if c = '-' then (c :: rest.takeWhile Char.isDigit, rest.dropWhile Char.isDigit)
    else ((c :: rest).takeWhile Char.isDigit, (c :: rest).dropWhile Char.isDigit)

/-- One optional `:NUM` group (greedy, taken exactly when a `:` is next). -/
def lexColonNum (cs : List Char) : List Char × List Char :=
  match cs with
  | [] => ([], [])
  | c :: rest =>
    if c = ':' then let p := lexNum rest; (c :: p.1, p.2) else ([], c :: rest)

/-- `IDX = '[' NUM (':' NUM){0,2} ']'`; returns the whole token text
(brackets included) and the rest of the input. -/
def lexIdx (cs : List Char) : Option (List Char × List Char) :=
  match cs with
  | [] => none
  | c :: rest =>
    if c = '[' then
      let p1 := lexNum rest
      let p2 := lexColonNum p1.2
      let p3 := lexColonNum p2.2
      match p3.2 with
      | [] => none
      | d :: r => if d = ']' then some (c :: (p1.1 ++ p2.1 ++ p3.1) ++ [d], r) else none
    else none

/-- `KEY = [^[.]+` with maximal munch; fails on an empty key. -/
def lexKey (cs : List Char) : Option (List Char × List Char) :=
  let k := cs.takeWhile isKeyChar
  if k = [] then none else some (k, cs.dropWhile isKeyChar)

/-- `KEY IDX?`: a key part with its optional directly-attached index. -/
def lexKeyIdx (cs : List Char) : Option (List RawTok × List Char) :=
  match lexKey cs with
  | none => none
  | some (k, r) =>
    match r with
    | [] => some ([.key k], [])
    | d :: _ =>
      if d = '[' then (lexIdx r).map fun p => ([.key k, .idx p.1], p.2)
      else some ([.key k], r)

/-- `FIRST = KEY IDX? | IDX`. -/
def lexFirst (cs : List Char) : Option (List RawTok × List Char) :=
  match cs with
  | [] => none
  | c :: _ =>
    if c = '[' then (lexIdx cs).map fun p => ([.idx p.1], p.2)
    else lexKeyIdx cs

/-- One `TAIL = '.' KEY IDX? | IDX`. -/
def lexTail1 (cs : List Char) : Option (List RawTok × List Char) :=
  match cs with
  | [] => none
  | c :: cs' =>
    if c = '.' then lexKeyIdx cs'
    else if c = '[' then (lexIdx (c :: cs')).map fun p => ([.idx p.1], p.2)
    else none

theorem lexNum_append (cs : List Char) : (lexNum cs).1 ++ (lexNum cs).2 = cs := by
  match cs with
  | [] => simp [lexNum]
  | c :: rest =>
    simp only [lexNum]
    by_cases h : c = '-'
    · simp [h, List.takeWhile_append_dropWhile]
    · simp [h, List.takeWhile_append_dropWhile]

theorem lexColonNum_append (cs : List Char) :
    (lexColonNum cs).1 ++ (lexColonNum cs).2 = cs := by
  match cs with
  | [] => simp [lexColonNum]
  | c :: rest =>
    simp only [lexColonNum]
    by_cases h : c = ':'
    · simp [h, lexNum_append]
    · simp [h]

theorem lexIdx_append {cs t r : List Char} (h : lexIdx cs = some (t, r)) :
    t ++ r = cs ∧ t ≠ [] := by
  match cs with
  | [] => simp [lexIdx] at h
  | c :: rest =>
    simp only [lexIdx] at h
    by_cases hc : c = '['
    · rw [if_pos hc] at h
      subst hc
      set p1 := lexNum rest with hp1
      set p2 := lexColonNum p1.2 with hp2
      set p3 := lexColonNum p2.2 with hp3
      match h2 : p3.2 with
      | [] => rw [h2] at h; simp at h
      | d :: r' =>
        rw [h2] at h
        dsimp only at h
        by_cases hd : d = ']'
        · rw [if_pos hd] at h
          subst hd
          simp only [Option.some.injEq, Prod.mk.injEq] at h
          obtain ⟨ht, hr⟩ := h
          subst ht
          refine ⟨?_, by simp⟩
          rw [← hr]
          have e1 : p1.1 ++ p1.2 = rest := lexNum_append rest
          have e2 : p2.1 ++ p2.2 = p1.2 := lexColonNum_append p1.2
          have e3 : p3.1 ++ p3.2 = p2.2 := lexColonNum_append p2.2
          have key : p1.1 ++ (p2.1 ++ (p3.1 ++ (']' :: r'))) = rest := by
            rw [← h2, e3, e2, e1]
          simp only [List.cons_append, List.append_assoc, List.singleton_append,
            List.nil_append]
          rw [key]
        · rw [if_neg hd] at h; simp at h
    · rw [if_neg hc] at h; simp at h

theorem lexKey_append {cs k r : List Char} (h : lexKey cs = some (k, r)) :
    k ++ r = cs ∧ k ≠ [] := by
  simp only [lexKey] at h
  by_cases he : cs.takeWhile isKeyChar = []
  · simp [he] at h
  · simp only [he, if_false, Option.some.injEq, Prod.mk.injEq] at h
    obtain ⟨hk, hr⟩ := h
    subst hk hr
    exact ⟨List.takeWhile_append_dropWhile isKeyChar cs, he⟩

theorem lexIdx_length {cs t r : List Char} (h : lexIdx cs = some (t, r)) :
    r.length < cs.length := by
  obtain ⟨happ, hne⟩ := lexIdx_append h
  have h1 : t.length + r.length = cs.length := by rw [← happ]; simp
  have h2 : 0 < t.length := List.length_pos.mpr hne
  omega

theorem lexKey_length {cs k r : List Char} (h : lexKey cs = some (k, r)) :
    r.length < cs.length := by
  obtain ⟨happ, hne⟩ := lexKey_append h
  have h1 : k.length + r.length = cs.length := by rw [← happ]; simp
  have h2 : 0 < k.length := List.length_pos.mpr hne
  omega

theorem lexKeyIdx_length {cs : List Char} {ts : List RawTok} {r : List Char}
    (h : lexKeyIdx cs = some (ts, r)) : r.length < cs.length := by
  simp only [lexKeyIdx] at h
  match h2 : lexKey cs with
  | none => rw [h2] at h; simp at h
  | some (k, r') =>
    rw [h2] at h
    have hk := lexKey_length h2
    match h3 : r' with
    | [] =>
      simp only [Option.some.injEq, Prod.mk.injEq] at h
      obtain ⟨-, hr⟩ := h
      subst hr
      subst h3
      simpa using hk
    | d :: rest =>
      subst h3
      dsimp only at h
      by_cases hd : d = '['
      · rw [if_pos hd] at h
        match h4 : lexIdx (d :: rest) with
        | none => rw [h4] at h; simp at h
        | some (t, r'') =>
          rw [h4] at h
          simp at h
          obtain ⟨-, hr⟩ := h
          subst hr
          have := lexIdx_length h4
          omega
      · rw [if_neg hd] at h
        simp only [Option.some.injEq, Prod.mk.injEq] at h
        obtain ⟨-, hr⟩ := h
        subst hr
        exact hk

theorem lexTail1_length {cs : List Char} {ts : List RawTok} {r : List Char}
    (h : lexTail1 cs = some (ts, r)) : r.length < cs.length := by
  match cs with
  | [] => simp [lexTail1] at h
  | c :: cs' =>
    simp only [lexTail1] at h
    by_cases h1 : c = '.'
    · rw [if_pos h1] at h
      have := lexKeyIdx_length h
      simpa using Nat.lt_succ_of_lt this
    · rw [if_neg h1] at h
      by_cases h2 : c = '['
      · rw [if_pos h2] at h
        match h4 : lexIdx (c :: cs') with
        | none => rw [h4] at h; simp at h
        | some (t, r'') =>
          rw [h4] at h
          simp at h
          obtain ⟨-, hr⟩ := h
          subst hr
          exact lexIdx_length h4
      · rw [if_neg h2] at h; simp at h

/-- `(?:\.KEY IDX?|IDX)*` run to the end of the input (the `$` anchor),
with a structural fuel so the kernel can evaluate it; any
`fuel >= cs.length` gives the same result because every tail consumes at
least one character (`lexTail1_length`). -/
def lexTailsF : Nat → List Char → Option (List RawTok)
  | _, [] => some []
  | 0, _ :: _ => none
  | fuel + 1, c :: rest =>
    match lexTail1 (c :: rest) with
    | none => none
    | some (ts, r) => (lexTailsF fuel r).map (ts ++ ·)

/-- The `TAIL*` loop of `_path_re`, run to the end of the input. -/
def lexTails (cs : List Char) : Option (List RawTok) := lexTailsF cs.length cs

/-- A complete match of `_path_re` against the whole input. -/
def lexAll (cs : List Char) : Option (List RawTok) :=
  match lexFirst cs with
  | none => none
  | some (ts, r) => (lexTails r).map (ts ++ ·)

/-- `_path_re.match(path)`: the captured `part` tokens, or `none` when the
regex does not match.  Mirrors Python's `$`, which also matches just before
one trailing newline (the greedy engine prefers the full-length match). -/
def lexPath (cs : List Char) : Option (List RawTok) :=
  match lexAll cs with
  | some ts => some ts
  | none =>
    if cs.getLast? = some '\n' then lexAll cs.dropLast else none

/-!
## `_split_match`, `split` and `join` (`_base.py` lines 80-136)
-/

/-- A parsed path component as produced by `_split_match`: a plain string
key, a plain `int` index, or one of the three `_IterationPoint` subclasses
of `types.py`.  Each iteration point stores its original token text
(`path_part` in the source); a slice point also stores the
`range(start, stop, step)` computed eagerly by `_RangeIterationPoint.__init__`. -/
inductive PathPart where
  | str (s : String)
  | int (n : Int)
  | listIter (raw : String)
  | starIter (raw : String)
  | rangeIter (raw : String) (start stop step : Int)
  deriving DecidableEq, Repr

/-- `isinstance(part, _IterationPoint)`. -/
def PathPart.isIterationPoint : PathPart → Bool
  | .listIter _ => true
  | .starIter _ => true
  | .rangeIter _ _ _ _ => true
  | _ => false

/-- The `name` class attribute of the `_IterationPoint` subclasses. -/
def PathPart.iterName : PathPart → String
  | .listIter _ => "empty square brackets"
  | .starIter _ => "*-key"
  | .rangeIter _ _ _ _ => "slice syntax"
  | _ => "<none>"

/-- Python `repr` of a simple string: quotes around the text.  (Escaping of
special characters is not modelled; no claim input needs it.) -/
def pyReprStr (s : String) : String := "'" ++ s ++ "'"

/-- `_IterationPoint.__str__`, which is `repr(self.path_part)`. -/
def PathPart.iterStr : PathPart → String
  | .listIter raw => pyReprStr raw
  | .starIter raw => pyReprStr raw
  | .rangeIter raw _ _ _ => pyReprStr raw
  | _ => ""

/-- The numeric value of a digit string (no sign). -/
def digitsVal (cs : List Char) : Nat :=
  cs.foldl (fun a c => a * 10 + (c.toNat - '0'.toNat)) 0

/-- Python `int(s)` restricted to `NUM` tokens (an optional `-` then
digits): fails exactly on the bare `'-'`; the callers exclude the empty
string beforehand. -/
def pyIntOfNum (cs : List Char) : Option Int :=
  match cs with
  | [] => none
  | c :: rest =>
    if c = '-' then
      if rest = [] then none else some (-(digitsVal rest : Int))
    else some (digitsVal (c :: rest))

/-- `sys.maxsize` on CPython (64-bit), the default slice `stop`. -/
def sysMaxsize : Int := 9223372036854775807

/-- Split a character list on `':'` (Python `str.split(':')`). -/
def splitOnColon : List Char → List (List Char)
  | [] => [[]]
  | c :: rest =>
    match splitOnColon rest with
    | [] => [[c]]
    | h :: t => if c = ':' then [] :: h :: t else (c :: h) :: t

/-- `_RangeIterationPoint._parse_slice` (`types.py` lines 96-119) splits
the text between the brackets on `':'`; only 2 or 3 fields can reach it
(the grammar allows at most two colons, and the no-colon case takes the
plain-index branch of `_split_match`). -/
def parseSliceFields (inner : List Char) :
    Except PyErr (List Char × List Char × List Char) :=
  match splitOnColon inner with
  | [a, b] => .ok (a, b, [])
  | [a, b, c] => .ok (a, b, c)
  | _ => .error (.valueError "bug: unhandled number of delimiters in range syntax")

/-- One optional slice field: empty text gives the default, otherwise
Python `int()`. -/
def sliceField (cs : List Char) (dflt : Int) : Except PyErr Int :=
  if cs = [] then .ok dflt
  else
    match pyIntOfNum cs with
    | some n => .ok n
    | none => .error (.valueError "invalid literal for int() with base 10: '-'")

/-- The rest of `_parse_slice`: parse the fields with defaults `start=0`,
`stop=sys.maxsize`, `step=1`; `int()` of a bare `'-'` raises `ValueError`,
and constructing `range(start, stop, 0)` raises `ValueError` as well. -/
def parseSlice (inner : List Char) : Except PyErr (Int × Int × Int) := do
  let fields ← parseSliceFields inner
  let start ← sliceField fields.1 0
  let stop ← sliceField fields.2.1 sysMaxsize
  let step ← sliceField fields.2.2 1
  if step = 0 then .error (.valueError "range() arg 3 must not be zero")
  else .ok (start, stop, step)

/-- The per-part body of `_split_match` (`_base.py` lines 90-105).  The
source discriminates by `part[0] == '[' and part[-1] == ']'`, which holds
exactly for bracketed tokens (a key token never contains `[`). -/
def splitTok (iterable : Bool) (t : RawTok) : Except PyErr PathPart := do
  let part ←
    match t with
    | .idx s =>
      let inner := (s.drop 1).dropLast
      if inner.contains ':' then
        match parseSlice inner with
        | .ok (a, b, c) => Except.ok (PathPart.rangeIter (String.mk s) a b c)
        | .error e => Except.error e
      else if inner ≠ [] then
        match pyIntOfNum inner with
        | some n => Except.ok (PathPart.int n)
        | none =>
          Except.error (.valueError "invalid literal for int() with base 10: '-'")
      else Except.ok (PathPart.listIter (String.mk s))
    | .key s =>
      if s.contains '*' then Except.ok (PathPart.starIter (String.mk s))
      else Except.ok (PathPart.str (String.mk s))
  if !iterable && part.isIterationPoint then
    Except.error (.invalidIterationError
      ("iterable " ++ part.iterName ++ " " ++ part.iterStr ++ " not allowed here"))
  else Except.ok part

/-- `_split_match(match, iterable)` (`_base.py` lines 88-106): convert the
captured tokens left to right, failing at the first bad one. -/
def _split_match (iterable : Bool) : List RawTok → Except PyErr (List PathPart)
  | [] => .ok []
  | t :: ts => do
    let p ← splitTok iterable t
    let ps ← _split_match iterable ts
    .ok (p :: ps)

/-- `split(path, iterable=False)` (`_base.py` lines 80-85): `''` splits to
the empty tuple; otherwise the path must match `_path_re`, else
`ValidationError('invalid path string')` from `_match_validate`. -/
def split (path : String) (iterable : Bool) : Except PyErr (List PathPart) :=
  if path = "" then .ok []
  else
    match lexPath path.data with
    | none => .error (.validationError "invalid path string")
    | some ts => _split_match iterable ts

/-- One step of `join`'s loop (`_base.py` lines 119-136) appending one part
to the accumulated path string.  `_IterationPoint.append_path`
(`types.py`): a `*`-key joins like a string key (dot separator); `[]` and
slice tokens append their original text with no separator. -/
def joinOne (path : String) : PathPart → String
  | .str s => if path ≠ "" then path ++ "." ++ s else s
  | .int n => if path ≠ "" then path ++ "[" ++ toString n ++ "]" else "[" ++ toString n ++ "]"
  | .starIter raw => if path ≠ "" then path ++ "." ++ raw else raw
  | .listIter raw => if path ≠ "" then path ++ raw else raw
  | .rangeIter raw _ _ _ => if path ≠ "" then path ++ raw else raw

instance {e a : Type} [DecidableEq e] [DecidableEq a] : DecidableEq (Except e a) :=
  fun x y =>
    match x, y with
    | .ok u, .ok v =>
      if h : u = v then .isTrue (by rw [h]) else .isFalse (fun q => h (by injection q))
    | .error u, .error v =>
      if h : u = v then .isTrue (by rw [h]) else .isFalse (fun q => h (by injection q))
    | .ok _, .error _ => .isFalse (fun q => Except.noConfusion q)
    | .error _, .ok _ => .isFalse (fun q => Except.noConfusion q)

/-- `join(split_path)` (`_base.py` lines 109-136).  In this typed embedding
every part is a str/int/iteration point, so the trailing
`raise ValidationError` branch of the source loop is unreachable and `join`
is total. -/
def join (ps : List PathPart) : String := ps.foldl joinOne ""

example : split "test[1][2]" false = .ok [.str "test", .int 1, .int 2] := by decide
example : split "[1][2][3][4]" false = .ok [.int 1, .int 2, .int 3, .int 4] := by decide
example : split "],%$^%^!@#$%[1]" false = .ok [.str "],%$^%^!@#$%", .int 1] := by decide
example : split "" false = .ok [] := by decide
example : split "a*b.c" true = .ok [.starIter "a*b", .str "c"] := by decide
example : split "a[]" true = .ok [.str "a", .listIter "[]"] := by decide
example : split "a[]" false =
    .error (.invalidIterationError "iterable empty square brackets '[]' not allowed here") := by
  decide
example : split "[-1]" false = .ok [.int (-1)] := by decide
example : split "[05]" false = .ok [.int 5] := by decide
example : split "[1" false = .error (.validationError "invalid path string") := by decide
example : split "a..b" false = .error (.validationError "invalid path string") := by decide
example : split "[1:2]" true = .ok [.rangeIter "[1:2]" 1 2 1] := by decide
example : split "[:]" true = .ok [.rangeIter "[:]" 0 sysMaxsize 1] := by decide
example : split "[-]" true =
    .error (.valueError "invalid literal for int() with base 10: '-'") := by decide
example : split "[::0]" true = .error (.valueError "range() arg 3 must not be zero") := by
  decide
example : split "test" false = .ok [.str "test"] := by decide
example : split "test1.test2" false = .ok [.str "test1", .str "test2"] := by decide
example : split "test[1].test[2].test[3][4].test" false =
    .ok [.str "test", .int 1, .str "test", .int 2, .str "test", .int 3, .int 4,
      .str "test"] := by decide
example : split ",%$^%^!@#$%" false = .ok [.str ",%$^%^!@#$%"] := by decide
example : split "1234567" false = .ok [.str "1234567"] := by decide
example : split "1234567[1]" false = .ok [.str "1234567", .int 1] := by decide
example : split "[5]" false = .ok [.int 5] := by decide
example : split "[1test[1" false = .error (.validationError "invalid path string") := by
  decide
example : split "[1[2]" false = .error (.validationError "invalid path string") := by decide
example : split "[,%$^%^!@#$%[1]" false =
    .error (.validationError "invalid path string") := by decide
example : join [.str "a", .str "b", .int 5] = "a.b[5]" := by decide
example : join [.int 0, .listIter "[]", .str "x"] = "[0][].x" := by decide
example : split "a[0]\n" false = .ok [.str "a", .int 0] := by decide
example : split "a\n" false = .ok [.str "a\n"] := by decide

/-!
## Token text reconstruction and token well-formedness

These lemmas justify the round-trip claim: a matched path string is exactly
the concatenation of its captured tokens (with the separating dots), every
key token is a nonempty run of non-`[`/non-`.` characters, and every
bracket token is bracket-delimited.
-/

/-- The text of one capture. -/
def tokText : RawTok → List Char
  | .key s => s
  | .idx s => s

/-- The text one capture contributes after the first: a key is preceded by
its separating dot, a bracket token is not. -/
def tailText : RawTok → List Char
  | .key s => '.' :: s
  | .idx s => s

/-- Concatenated `tailText` of a token run. -/
def tailsText (ts : List RawTok) : List Char := (ts.map tailText).flatten

/-- The full text of a capture list: head bare, rest with separators. -/
def toksText : List RawTok → List Char
  | [] => []
  | t :: ts => tokText t ++ tailsText ts

/-- Well-formedness of lexer tokens. -/
def tokWF : RawTok → Prop
  | .key k => k ≠ [] ∧ ∀ c ∈ k, isKeyChar c
  | .idx s => ∃ inner, s = '[' :: inner ++ [']']

theorem lexKey_keychars {cs k r : List Char} (h : lexKey cs = some (k, r)) :
    ∀ c ∈ k, isKeyChar c := by
  simp only [lexKey] at h
  by_cases he : cs.takeWhile isKeyChar = []
  · simp [he] at h
  · simp only [he, if_false, Option.some.injEq, Prod.mk.injEq] at h
    obtain ⟨hk, -⟩ := h
    subst hk
    intro c hc
    exact List.mem_takeWhile_imp hc

theorem lexIdx_shape {cs t r : List Char} (h : lexIdx cs = some (t, r)) :
    ∃ inner, t = '[' :: inner ++ [']'] := by
  match cs with
  | [] => simp [lexIdx] at h
  | c :: rest =>
    simp only [lexIdx] at h
    by_cases hc : c = '['
    · rw [if_pos hc] at h
      subst hc
      match h2 : (lexColonNum (lexColonNum (lexNum rest).2).2).2 with
      | [] => rw [h2] at h; simp at h
      | d :: r' =>
        rw [h2] at h
        dsimp only at h
        by_cases hd : d = ']'
        · rw [if_pos hd] at h
          subst hd
          simp only [Option.some.injEq, Prod.mk.injEq] at h
          obtain ⟨ht, -⟩ := h
          exact ⟨_, by rw [← ht]⟩
        · rw [if_neg hd] at h; simp at h
    · rw [if_neg hc] at h; simp at h

theorem lexKeyIdx_spec {cs : List Char} {ts : List RawTok} {r : List Char}
    (h : lexKeyIdx cs = some (ts, r)) :
    toksText ts ++ r = cs ∧ ts ≠ [] ∧ ∀ t ∈ ts, tokWF t := by
  simp only [lexKeyIdx] at h
  match h2 : lexKey cs with
  | none => rw [h2] at h; simp at h
  | some (k, r') =>
    rw [h2] at h
    dsimp only at h
    obtain ⟨hk_app, hk_ne⟩ := lexKey_append h2
    have hk_chars := lexKey_keychars h2
    match h3 : r' with
    | [] =>
      subst h3
      dsimp only at h
      simp only [Option.some.injEq, Prod.mk.injEq] at h
      obtain ⟨hts, hr⟩ := h
      subst hts hr
      refine ⟨by simpa [toksText, tailsText, tokText] using hk_app, by simp, ?_⟩
      intro t ht
      simp only [List.mem_singleton] at ht
      subst ht
      exact ⟨hk_ne, hk_chars⟩
    | d :: rest =>
      subst h3
      dsimp only at h
      by_cases hd : d = '['
      · rw [if_pos hd] at h
        match h4 : lexIdx (d :: rest) with
        | none => rw [h4] at h; simp at h
        | some (t, r'') =>
          rw [h4] at h
          simp at h
          obtain ⟨hts, hr⟩ := h
          subst hts hr
          obtain ⟨hi_app, -⟩ := lexIdx_append h4
          have hi_shape := lexIdx_shape h4
          refine ⟨?_, by simp, ?_⟩
          · simp only [toksText, tailsText, tokText, tailText, List.map_cons,
              List.map_nil, List.flatten_cons, List.flatten_nil, List.append_nil,
              List.append_assoc]
            rw [hi_app, hk_app]
          · intro u hu
            simp only [List.mem_cons, List.not_mem_nil, or_false] at hu
            rcases hu with hu | hu <;> subst hu
            · exact ⟨hk_ne, hk_chars⟩
            · exact hi_shape
      · rw [if_neg hd] at h
        simp only [Option.some.injEq, Prod.mk.injEq] at h
        obtain ⟨hts, hr⟩ := h
        subst hts hr
        refine ⟨by simpa [toksText, tailsText, tokText] using hk_app, by simp, ?_⟩
        intro t ht
        simp only [List.mem_singleton] at ht
        subst ht
        exact ⟨hk_ne, hk_chars⟩

theorem lexFirst_spec {cs : List Char} {ts : List RawTok} {r : List Char}
    (h : lexFirst cs = some (ts, r)) :
    toksText ts ++ r = cs ∧ ts ≠ [] ∧ ∀ t ∈ ts, tokWF t := by
  match cs with
  | [] => simp [lexFirst] at h
  | c :: rest =>
    simp only [lexFirst] at h
    by_cases hc : c = '['
    · rw [if_pos hc] at h
      match h4 : lexIdx (c :: rest) with
      | none => rw [h4] at h; simp at h
      | some (t, r'') =>
        rw [h4] at h
        simp at h
        obtain ⟨hts, hr⟩ := h
        subst hts hr
        obtain ⟨hi_app, -⟩ := lexIdx_append h4
        have hi_shape := lexIdx_shape h4
        refine ⟨by simpa [toksText, tailsText, tokText] using hi_app, by simp, ?_⟩
        intro u hu
        simp only [List.mem_singleton] at hu
        subst hu
        exact hi_shape
    · rw [if_neg hc] at h
      exact lexKeyIdx_spec h

theorem lexTail1_spec {cs : List Char} {ts : List RawTok} {r : List Char}
    (h : lexTail1 cs = some (ts, r)) :
    tailsText ts ++ r = cs ∧ ∀ t ∈ ts, tokWF t := by
  match cs with
  | [] => simp [lexTail1] at h
  | c :: cs' =>
    simp only [lexTail1] at h
    by_cases h1 : c = '.'
    · rw [if_pos h1] at h
      subst h1
      obtain ⟨happ, hne, hwf⟩ := lexKeyIdx_spec h
      refine ⟨?_, hwf⟩
      -- a tail run starting with a key renders `'.' :: key ...`
      match hts : ts with
      | [] => exact absurd rfl hne
      | .key k :: rest =>
        subst hts
        simp only [toksText, tokText] at happ
        simp only [tailsText, List.map_cons, List.flatten_cons, tailText,
          List.cons_append, List.append_assoc] at *
        rw [← happ]
      | .idx s :: rest =>
        exfalso
        -- lexKeyIdx always returns a key first
        subst hts
        simp only [lexKeyIdx] at h
        match h2 : lexKey cs' with
        | none => rw [h2] at h; simp at h
        | some (k, r') =>
          rw [h2] at h
          dsimp only at h
          match h3 : r' with
          | [] => subst h3; dsimp only at h; simp at h
          | d :: rest' =>
            subst h3
            dsimp only at h
            by_cases hd : d = '['
            · rw [if_pos hd] at h
              match h4 : lexIdx (d :: rest') with
              | none => rw [h4] at h; simp at h
              | some (t, r'') => rw [h4] at h; simp at h
            · rw [if_neg hd] at h; simp at h
    · rw [if_neg h1] at h
      by_cases h2 : c = '['
      · rw [if_pos h2] at h
        match h4 : lexIdx (c :: cs') with
        | none => rw [h4] at h; simp at h
        | some (t, r'') =>
          rw [h4] at h
          simp at h
          obtain ⟨hts, hr⟩ := h
          subst hts hr
          obtain ⟨hi_app, -⟩ := lexIdx_append h4
          have hi_shape := lexIdx_shape h4
          refine ⟨by simpa [tailsText, tailText] using hi_app, ?_⟩
          intro u hu
          simp only [List.mem_singleton] at hu
          subst hu
          exact hi_shape
      · rw [if_neg h2] at h; simp at h

theorem lexTailsF_spec {fuel : Nat} {cs : List Char} {ts : List RawTok}
    (hf : cs.length ≤ fuel) (h : lexTailsF fuel cs = some ts) :
    tailsText ts = cs ∧ ∀ t ∈ ts, tokWF t := by
  induction fuel generalizing cs ts with
  | zero =>
    match cs with
    | [] =>
      simp only [lexTailsF, Option.some.injEq] at h
      subst h
      exact ⟨rfl, by simp⟩
    | _ :: _ => simp at hf
  | succ fuel ih =>
    match cs with
    | [] =>
      simp only [lexTailsF, Option.some.injEq] at h
      subst h
      exact ⟨rfl, by simp⟩
    | c :: rest =>
      simp only [lexTailsF] at h
      match h1 : lexTail1 (c :: rest) with
      | none => rw [h1] at h; simp at h
      | some (ts1, r) =>
        rw [h1] at h
        dsimp only at h
        match h5 : lexTailsF fuel r with
        | none => rw [h5] at h; simp at h
        | some ts2 =>
          rw [h5] at h
          simp at h
          subst h
          have hlen := lexTail1_length h1
          have hr : r.length ≤ fuel := by
            simp only [List.length_cons] at hlen hf
            omega
          obtain ⟨happ1, hwf1⟩ := lexTail1_spec h1
          obtain ⟨happ2, hwf2⟩ := ih hr h5
          constructor
          · simp only [tailsText, List.map_append, List.flatten_append] at *
            rw [happ2, happ1]
          · intro t ht
            rcases List.mem_append.mp ht with ht | ht
            · exact hwf1 t ht
            · exact hwf2 t ht

theorem lexAll_spec {cs : List Char} {ts : List RawTok}
    (h : lexAll cs = some ts) :
    toksText ts = cs ∧ ts ≠ [] ∧ ∀ t ∈ ts, tokWF t := by
  simp only [lexAll] at h
  match h1 : lexFirst cs with
  | none => rw [h1] at h; simp at h
  | some (ts1, r) =>
    rw [h1] at h
    dsimp only at h
    match h2 : lexTails r with
    | none => rw [h2] at h; simp at h
    | some ts2 =>
      rw [h2] at h
      simp at h
      subst h
      obtain ⟨happ1, hne1, hwf1⟩ := lexFirst_spec h1
      obtain ⟨happ2, hwf2⟩ := lexTailsF_spec (Nat.le_refl _) h2
      refine ⟨?_, by simp [hne1], ?_⟩
      · match hts : ts1 with
        | [] => exact absurd rfl hne1
        | t0 :: rest =>
          subst hts
          simp only [toksText, List.cons_append, tailsText, List.map_append,
            List.flatten_append, List.append_assoc] at *
          rw [happ2, ← happ1]
      · intro t ht
        rcases List.mem_append.mp ht with ht | ht
        · exact hwf1 t ht
        · exact hwf2 t ht

/-!
## The join/split round trip (claim C1)
-/

/-- `cs` is the canonical decimal spelling of an integer: `int()` succeeds
on it and `str(int(cs))` gives back `cs` (so no leading zeros, no bare `-`,
no `-0`). -/
def canonicalNum (cs : List Char) : Bool :=
  match pyIntOfNum cs with
  | some n => (toString n).data == cs
  | none => false

/-- A bracket token whose `split` result re-renders verbatim: a no-colon
nonempty body must be a canonical integer (`join` re-renders `[05]` as
`[5]`), and a sliced body must be accepted by `_parse_slice` (else `split`
itself raises `ValueError` on `-` fields or a zero step).  Key tokens are
always render-safe. -/
def renderSafeTok : RawTok → Bool
  | .key _ => true
  | .idx s =>
    let inner := (s.drop 1).dropLast
    if inner.contains ':' then
      match parseSlice inner with
      | .ok _ => true
      | .error _ => false
    else if inner = [] then true
    else canonicalNum inner

theorem tokText_ne_nil {t : RawTok} (h : tokWF t) : tokText t ≠ [] := by
  cases t with
  | key k => exact h.1
  | idx s =>
    obtain ⟨inner, hsh⟩ := h
    subst hsh
    simp [tokText]

theorem data_ne_nil_of_ne_empty {x : String} (h : x.data ≠ []) : x ≠ "" := by
  intro hcon
  subst hcon
  exact h rfl

/-- With iteration allowed, a render-safe well-formed token splits
successfully, and joining the resulting part appends exactly the token's
original text. -/
theorem splitTok_join {t : RawTok} (hs : renderSafeTok t = true) (hw : tokWF t) :
    ∃ p, splitTok true t = .ok p ∧
      (joinOne "" p).data = tokText t ∧
      ∀ path : String, path ≠ "" → (joinOne path p).data = path.data ++ tailText t := by
  cases t with
  | key k =>
    by_cases hstar : '*' ∈ k
    · refine ⟨.starIter ⟨k⟩, ?_, ?_, ?_⟩
      · simp only [splitTok]
        simp [hstar]
        rfl
      · simp [joinOne, tokText]
      · intro path hp
        simp [joinOne, hp, tailText, String.data_append]
    · refine ⟨.str ⟨k⟩, ?_, ?_, ?_⟩
      · simp only [splitTok]
        simp [hstar]
        rfl
      · simp [joinOne, tokText]
      · intro path hp
        simp [joinOne, hp, tailText, String.data_append]
  | idx s =>
    obtain ⟨inner, hsh⟩ := hw
    have hinner : (s.drop 1).dropLast = inner := by
      subst hsh
      simp [List.dropLast_concat]
    simp only [renderSafeTok, hinner] at hs
    by_cases hcolon : ':' ∈ inner
    · have hcolon' : inner.contains ':' = true := by simpa using hcolon
      rw [if_pos hcolon'] at hs
      match hps : parseSlice inner with
      | .error e => rw [hps] at hs; simp at hs
      | .ok abc =>
        obtain ⟨a, b, c⟩ := abc
        have hinner2 : s.tail.dropLast = inner := by simpa using hinner
        refine ⟨.rangeIter ⟨s⟩ a b c, ?_, ?_, ?_⟩
        · simp only [splitTok]
          simp [hinner, hinner2, hcolon, hps]
          rfl
        · simp [joinOne, tokText]
        · intro path hp
          simp [joinOne, hp, tailText, String.data_append]
    · have hcolon' : inner.contains ':' = false := by simpa using hcolon
      rw [hcolon'] at hs
      simp only [Bool.false_eq_true, if_false] at hs
      by_cases hemp : inner = []
      · rw [if_pos hemp] at hs
        have hinner2 : s.tail.dropLast = inner := by simpa using hinner
        refine ⟨.listIter ⟨s⟩, ?_, ?_, ?_⟩
        · simp only [splitTok]
          simp [hinner, hinner2, hcolon, hemp]
          rfl
        · simp [joinOne, tokText]
        · intro path hp
          simp [joinOne, hp, tailText, String.data_append]
      · rw [if_neg hemp] at hs
        simp only [canonicalNum] at hs
        match hn : pyIntOfNum inner with
        | none => rw [hn] at hs; simp at hs
        | some n =>
          rw [hn] at hs
          have hcanon : (toString n).data = inner := by simpa using hs
          have hinner2 : s.tail.dropLast = inner := by simpa using hinner
          refine ⟨.int n, ?_, ?_, ?_⟩
          · simp only [splitTok]
            simp [hinner, hinner2, hcolon, hemp, hn]
            rfl
          · simp only [joinOne, tokText]
            simp [String.data_append, hcanon, hsh]
          · intro path hp
            simp only [joinOne, hp, tailText]
            simp [String.data_append, hcanon, hsh, hp]

/-- Splitting a run of render-safe tokens succeeds and folding `joinOne`
over the results appends exactly the run's tail text. -/
theorem split_match_foldl {ts : List RawTok}
    (hs : ∀ t ∈ ts, renderSafeTok t = true) (hw : ∀ t ∈ ts, tokWF t) :
    ∃ ps, _split_match true ts = .ok ps ∧
      ∀ path : String, path ≠ "" →
        (ps.foldl joinOne path).data = path.data ++ tailsText ts := by
  induction ts with
  | nil => exact ⟨[], rfl, fun path _ => by simp [tailsText]⟩
  | cons t ts ih =>
    obtain ⟨p, hp_ok, hp0, hpS⟩ :=
      splitTok_join (hs t (by simp)) (hw t (by simp))
    obtain ⟨ps, hps_ok, hps⟩ :=
      ih (fun u hu => hs u (by simp [hu])) (fun u hu => hw u (by simp [hu]))
    refine ⟨p :: ps, ?_, ?_⟩
    · simp only [_split_match, hp_ok, hps_ok]
      rfl
    · intro path hpath
      have hdata := hpS path hpath
      have hne : joinOne path p ≠ "" := by
        apply data_ne_nil_of_ne_empty
        rw [hdata]
        intro hcon
        rcases List.append_eq_nil.mp hcon with ⟨h1, -⟩
        apply hpath
        cases path with
        | mk d => simp_all
      simp only [List.foldl_cons]
      rw [hps _ hne, hdata]
      simp [tailsText, List.append_assoc]

/-- C1 (amended): for every non-empty path string fully matched by the
grammar whose bracket tokens are render-safe (plain indexes written
canonically, slice fields accepted by `_parse_slice`), `split` with
iteration allowed succeeds and `join` reproduces the original string
exactly: `join(split(s)) == s`. -/
theorem C1_join_split_roundtrip {s : String} {ts : List RawTok}
    (hlex : lexAll s.data = some ts)
    (hsafe : ∀ t ∈ ts, renderSafeTok t = true) :
    ∃ ps, split s true = .ok ps ∧ join ps = s := by
  obtain ⟨htext, hne, hwf⟩ := lexAll_spec hlex
  have hs_ne : ¬s = "" := by
    intro hcon
    subst hcon
    simp [lexAll, lexFirst] at hlex
  have hlexPath : lexPath s.data = some ts := by
    simp [lexPath, hlex]
  have hsplit : split s true = _split_match true ts := by
    simp only [split, if_neg hs_ne, hlexPath]
  cases ts with
  | nil => exact absurd rfl hne
  | cons t0 rest =>
    obtain ⟨p0, hp_ok, hp0, -⟩ :=
      splitTok_join (hsafe t0 (by simp)) (hwf t0 (by simp))
    obtain ⟨ps, hps_ok, hps⟩ := @split_match_foldl rest
      (fun u hu => hsafe u (by simp [hu])) (fun u hu => hwf u (by simp [hu]))
    refine ⟨p0 :: ps, ?_, ?_⟩
    · rw [hsplit]
      simp only [_split_match, hp_ok, hps_ok]
      rfl
    · have h0ne : joinOne "" p0 ≠ "" := by
        apply data_ne_nil_of_ne_empty
        rw [hp0]
        exact tokText_ne_nil (hwf t0 (by simp))
      apply String.ext
      show (List.foldl joinOne "" (p0 :: ps)).data = s.data
      simp only [List.foldl_cons]
      rw [hps _ h0ne, hp0, ← htext]
      simp [toksText]

/-- Witness for C1 at a concrete mixed path with keys, an index, a list
iteration and a slice. -/
theorem C1_join_split_roundtrip_witness :
    ∃ ps, split "a.b[5][].c[1:2]" true = .ok ps ∧ join ps = "a.b[5][].c[1:2]" :=
  @C1_join_split_roundtrip "a.b[5][].c[1:2]"
    [.key "a".data, .key "b".data, .idx "[5]".data, .idx "[]".data,
      .key "c".data, .idx "[1:2]".data]
    (by decide) (by decide)

/-- C1 counterexample: grammar-valid non-empty strings on which
`join(split(s)) == s` fails: the non-canonical index `[05]` re-renders as
`[5]`; `[-:]` and `[::0]` match the grammar but `split` raises `ValueError`
(from `int('-')` / `range(..., 0)`); and `"a[0]\n"` matches via Python's
`$`-before-trailing-newline and re-renders without the newline. -/
theorem C1_counterexample :
    (lexPath "[05]".data).isSome = true ∧
    split "[05]" false = .ok [.int 5] ∧
    join [.int 5] = "[5]" ∧
    ("[5]" : String) ≠ "[05]" ∧
    (lexPath "[-:]".data).isSome = true ∧
    split "[-:]" true = .error (.valueError "invalid literal for int() with base 10: '-'") ∧
    (lexPath "[::0]".data).isSome = true ∧
    split "[::0]" true = .error (.valueError "range() arg 3 must not be zero") ∧
    (lexPath "a[0]\n".data).isSome = true ∧
    split "a[0]\n" false = .ok [.str "a", .int 0] ∧
    join [.str "a", .int 0] = "a[0]" ∧
    ("a[0]" : String) ≠ "a[0]\n" := by
  refine ⟨by decide, by decide, by decide, by decide, by decide, by decide,
    by decide, by decide, by decide, by decide, by decide, by decide⟩

/-!
## The resolver (`_base.py` lines 139-209 and 292-330)

`put`/`delete`/`discard` mutate the final container in place through the
reference returned by `_leaf`; the pure model rebuilds the tree along the
walked path instead (`setChild`), which is observably the same for trees
without internal aliasing.
-/

/-- Python `repr` of a resolved key (always an `int` or `str` where the
source interpolates `{key!r}`). -/
def pyReprPart : PathPart → String
  | .str s => pyReprStr s
  | .int n => toString n
  | _ => "<iteration point>"

/-- Rewrite the message of an exception, keeping its concrete class
(`raise type(e)(...)`). -/
def PyErr.mapMsg (f : String → String) : PyErr → PyErr
  | .validationError m => .validationError (f m)
  | .typeValidationError m => .typeValidationError (f m)
  | .typeMismatchValidationError m => .typeMismatchValidationError (f m)
  | .invalidIterationError m => .invalidIterationError (f m)
  | .pathLookupError m => .pathLookupError (f m)
  | .keyError m => .keyError (f m)
  | .indexError m => .indexError (f m)
  | .valueError m => .valueError (f m)
  | .typeError m => .typeError (f m)
  | .runtimeError m => .runtimeError (f m)

/-- `_validate_key_collection_type(obj, key)` (`_base.py` lines 139-153).
The `isinstance(key, _key_types)` failure branch is unreachable in this
typed embedding (every non-iteration `PathPart` is an int or str). -/
def _validate_key_collection_type (obj : Value) (key : PathPart) : Except PyErr Unit :=
  if key.isIterationPoint then .error (.typeError "bug: iteration not supported here")
  else if !obj.isCollection then .error (.typeValidationError "object must be list/dict")
  else
    match key, obj with
    | .int _, .vlist _ => .ok ()
    | .int _, _ =>
      .error (.typeMismatchValidationError ("int key requires list, got " ++ obj.typeName))
    | .str _, .vdict _ => .ok ()
    | .str _, _ =>
      .error (.typeMismatchValidationError ("str key requires dict, got " ++ obj.typeName))
    | _, _ => .ok ()

/-- `_contextual_validate_key_collection_type` (lines 156-167): the key is
appended to `at_path` before validating, and a `ValidationError` is
re-raised as the same class with the joined path prefixed; the `TypeError`
for iteration points is not a `ValidationError` and passes through. -/
def _contextual_validate (at_path : List PathPart) (obj : Value) (key : PathPart) :
    Except PyErr Unit :=
  match _validate_key_collection_type obj key with
  | .ok _ => .ok ()
  | .error e =>
    if e.isValidationError then
      .error (e.mapMsg (fun m => join (at_path ++ [key]) ++ ": " ++ m))
    else .error e

/-- Python `xs[i]` on a list: negative indexes wrap from the end. -/
def pyListGet (xs : List Value) (i : Int) : Except PyErr Value :=
  let n : Int := xs.length
  if 0 ≤ i ∧ i < n then .ok (xs.getD i.toNat Value.vnone)
  else if -n ≤ i ∧ i < 0 then .ok (xs.getD (i + n).toNat Value.vnone)
  else .error (.indexError "list index out of range")

/-- First-match lookup in a dict's entry list. -/
def dictLookup (m : List (String × Value)) (k : String) : Option Value :=
  match m.find? (fun p => p.1 == k) with
  | some p => some p.2
  | none => none

/-- Python `obj[key]` (only reached after validation, so only on a
list/int or dict/str pair; a missing key raises `KeyError(repr(key))`). -/
def pyGetItem (obj : Value) (key : PathPart) : Except PyErr Value :=
  match obj, key with
  | .vlist xs, .int i => pyListGet xs i
  | .vdict m, .str k =>
    match dictLookup m k with
    | some v => .ok v
    | none => .error (.keyError (pyReprStr k))
  | _, _ => .error (.typeError "unsupported subscript")

/-- Python `xs[i] = v`: in-range (possibly negative) replacement only, no
extension (`IndexError('list assignment index out of range')`). -/
def pyListSet (xs : List Value) (i : Int) (v : Value) : Except PyErr (List Value) :=
  let n : Int := xs.length
  if 0 ≤ i ∧ i < n then .ok (xs.set i.toNat v)
  else if -n ≤ i ∧ i < 0 then .ok (xs.set (i + n).toNat v)
  else .error (.indexError "list assignment index out of range")

/-- Python `d[k] = v`: replace the first (only) entry with that key, else
append, preserving insertion order. -/
def dictSet : List (String × Value) → String → Value → List (String × Value)
  | [], k, v => [(k, v)]
  | (k', v') :: rest, k, v =>
    if k' = k then (k, v) :: rest else (k', v') :: dictSet rest k v

/-- Python `obj[key] = value`. -/
def pySetItem (obj : Value) (key : PathPart) (v : Value) : Except PyErr Value :=
  match obj, key with
  | .vlist xs, .int i => (pyListSet xs i v).map Value.vlist
  | .vdict m, .str k => .ok (.vdict (dictSet m k v))
  | _, _ => .error (.typeError "unsupported subscript")

/-- Python `del xs[i]`. -/
def pyListDel (xs : List Value) (i : Int) : Except PyErr (List Value) :=
  let n : Int := xs.length
  if 0 ≤ i ∧ i < n then .ok (xs.eraseIdx i.toNat)
  else if -n ≤ i ∧ i < 0 then .ok (xs.eraseIdx (i + n).toNat)
  else .error (.indexError "list assignment index out of range")

/-- Remove every entry with the given key (a Python dict has at most one). -/
def dictRemove (m : List (String × Value)) (k : String) : List (String × Value) :=
  m.filter (fun p => p.1 ≠ k)

/-- Python `del obj[key]`. -/
def pyDelItem (obj : Value) (key : PathPart) : Except PyErr Value :=
  match obj, key with
  | .vlist xs, .int i => (pyListDel xs i).map Value.vlist
  | .vdict m, .str k =>
    match dictLookup m k with
    | some _ => .ok (.vdict (dictRemove m k))
    | none => .error (.keyError (pyReprStr k))
  | _, _ => .error (.typeError "unsupported subscript")

/-- Replace the child at an existing key: the pure image of mutating the
shared child object in place.  Only reached after `pyGetItem` succeeded on
the same key. -/
def setChild (obj : Value) (key : PathPart) (child : Value) : Value :=
  match obj, key with
  | .vlist xs, .int i =>
    let n : Int := xs.length
    .vlist (xs.set (if i < 0 then (i + n).toNat else i.toNat) child)
  | .vdict m, .str k => .vdict (dictSet m k child)
  | _, _ => obj

/-- `_leaf(obj, split_path)` (`_base.py` lines 175-186): walk every
component but the last, validating (contextually) then dereferencing - a
missing intermediate raises `PathLookupError` naming the path walked so
far; the last component is validated but not dereferenced.
`split_path[-1]` of an empty path raises a plain `IndexError`. -/
def _leafW (obj : Value) (at_path : List PathPart) :
    List PathPart → Except PyErr (Value × PathPart)
  | [] => .error (.indexError "tuple index out of range")
  | [k] => do
    let _ ← _contextual_validate at_path obj k
    .ok (obj, k)
  | k :: rest => do
    let _ ← _contextual_validate at_path obj k
    match pyGetItem obj k with
    | .error _ =>
      -- obj[key] after validation can only raise a LookupError
      .error (.pathLookupError
        (join at_path ++ ": could not find key/index " ++ pyReprPart k))
    | .ok child => _leafW child (at_path ++ [k]) rest

/-- `_leaf` from the root. -/
def _leaf (obj : Value) (sp : List PathPart) : Except PyErr (Value × PathPart) :=
  _leafW obj [] sp

/-- `leaf(obj, path)` (lines 170-172). -/
def leaf (obj : Value) (path : String) : Except PyErr (Value × PathPart) := do
  let sp ← split path false
  _leaf obj sp

/-- `_get(obj, split_path, default)` (lines 199-209): the empty path
returns the root; a leaf `LookupError` becomes the default when one was
supplied. -/
def _get (obj : Value) (sp : List PathPart) (dflt : Option Value) : Except PyErr Value :=
  match sp with
  | [] => .ok obj
  | _ => do
    let lk ← _leaf obj sp
    match pyGetItem lk.1 lk.2 with
    | .ok v => .ok v
    | .error e =>
      if e.isLookupError then
        match dflt with
        | none => .error e
        | some d => .ok d
      else .error e

/-- `get(obj, path, default=NO_DEFAULT)` (lines 189-196); `none` models the
`NO_DEFAULT` sentinel. -/
def get (obj : Value) (path : String) (dflt : Option Value) : Except PyErr Value := do
  let sp ← split path false
  _get obj sp dflt

/-- The walk of `_leaf` fused with an in-place action on the final
container: `act` returns the mutated final container and the model
rebuilds the tree along the walked path. -/
def _leafAct (act : Value → PathPart → Except PyErr Value) :
    Value → List PathPart → List PathPart → Except PyErr Value
  | _, _, [] => .error (.indexError "tuple index out of range")
  | obj, at_path, [k] => do
    let _ ← _contextual_validate at_path obj k
    act obj k
  | obj, at_path, k :: rest => do
    let _ ← _contextual_validate at_path obj k
    match pyGetItem obj k with
    | .error _ =>
      .error (.pathLookupError
        (join at_path ++ ": could not find key/index " ++ pyReprPart k))
    | .ok child => do
      let child' ← _leafAct act child (at_path ++ [k]) rest
      .ok (setChild obj k child')

/-- `put(obj, path, value)` (lines 292-302): `leaf` then
`leaf_obj[leaf_key] = value`; the result is the mutated tree. -/
def put (obj : Value) (path : String) (v : Value) : Except PyErr Value := do
  let sp ← split path false
  _leafAct (fun cont k => pySetItem cont k v) obj [] sp

/-- `delete(obj, path)` (lines 305-314): `leaf` then `del obj[leaf_key]`. -/
def delete (obj : Value) (path : String) : Except PyErr Value := do
  let sp ← split path false
  _leafAct (fun cont k => pyDelItem cont k) obj [] sp

/-- The leaf action of `discard` (lines 326-330): `del obj[leaf_key]` with
`except LookupError: pass` - the container is left unchanged when the leaf
entry is absent. -/
def discardAct (cont : Value) (k : PathPart) : Except PyErr Value :=
  match pyDelItem cont k with
  | .ok c => .ok c
  | .error e => if e.isLookupError then .ok cont else .error e

/-- `discard(obj, path)` (lines 317-330). -/
def discard (obj : Value) (path : String) : Except PyErr Value := do
  let sp ← split path false
  _leafAct discardAct obj [] sp

example :
    get (.vdict [("a", .vdict [("b", .vlist [.vint 0, .vint 1, .vint 2]), ("c", .vint 5)])])
      "a.b[1]" none = .ok (.vint 1) := by decide
example : get (.vlist [.vint 5]) "[0]" none = .ok (.vint 5) := by decide
example : get (.vlist [.vint 5]) "[-1]" none = .ok (.vint 5) := by decide
example : get (.vdict []) "a" (some (.vint 42)) = .ok (.vint 42) := by decide
example : get (.vdict []) "a" none = .error (.keyError "'a'") := by decide
example : get (.vint 3) "" none = .ok (.vint 3) := by decide
example : put (.vlist [.vint 0]) "[1]" (.vint 9) =
    .error (.indexError "list assignment index out of range") := by decide
example : put (.vlist [.vint 0]) "[0]" (.vint 9) = .ok (.vlist [.vint 9]) := by decide
example : put (.vdict []) "a" (.vint 42) = .ok (.vdict [("a", .vint 42)]) := by decide
example : delete (.vlist [.vint 0, .vint 1]) "[0]" = .ok (.vlist [.vint 1]) := by decide
example : delete (.vdict []) "a" = .error (.keyError "'a'") := by decide
example : discard (.vdict [("a", .vint 1)]) "a" = .ok (.vdict []) := by decide
example : discard (.vdict [("a", .vint 1)]) "b" = .ok (.vdict [("a", .vint 1)]) := by decide
example : discard (.vdict []) "a.b" =
    .error (.pathLookupError ": could not find key/index 'a'") := by decide
example : discard (.vlist []) "a" =
    .error (.typeMismatchValidationError "a: str key requires dict, got list") := by decide
example : put (.vdict [("a", .vdict [("b", .vint 1)])]) "a.b" (.vint 2) =
    .ok (.vdict [("a", .vdict [("b", .vint 2)])]) := by decide

/-- Reduction of `Except` binds, for `simp` over the monadic embedding. -/
@[simp] theorem exceptBind_ok {e a b : Type} (x : a) (f : a → Except e b) :
    (Except.ok x >>= f) = f x := rfl

/-- Reduction of `Except` binds on the error side. -/
@[simp] theorem exceptBind_error {e a b : Type} (x : e) (f : a → Except e b) :
    (Except.error x >>= f : Except e b) = Except.error x := rfl

/-- `isinstance(e, DatapathError)`: the `ValidationError` family plus
`PathLookupError`. -/
def PyErr.isDatapathError : PyErr → Bool
  | .pathLookupError _ => true
  | e => e.isValidationError

theorem dictLookup_dictSet_self (m : List (String × Value)) (k : String) (v : Value) :
    dictLookup (dictSet m k v) k = some v := by
  induction m with
  | nil => simp [dictSet, dictLookup]
  | cons e rest ih =>
    obtain ⟨k', v'⟩ := e
    by_cases hk : k' = k
    · simp [dictSet, hk, dictLookup]
    · simp only [dictSet, if_neg hk]
      simp only [dictLookup, List.find?_cons] at ih ⊢
      have : (k' == k) = false := by simpa using hk
      simp [this, ih]

/-- C9: with the empty path, `put`, `delete` and `discard` all raise the
plain `IndexError` from evaluating `split_path[-1]` on an empty tuple -
not a datapath error kind - and the tree is unchanged (the failure happens
before any mutation); only `get` treats the empty path specially, returning
the root itself. -/
theorem C9_empty_path (obj v : Value) (dflt : Option Value) :
    put obj "" v = .error (.indexError "tuple index out of range") ∧
    delete obj "" = .error (.indexError "tuple index out of range") ∧
    discard obj "" = .error (.indexError "tuple index out of range") ∧
    (PyErr.indexError "tuple index out of range").isDatapathError = false ∧
    get obj "" dflt = .ok obj := by
  refine ⟨rfl, rfl, rfl, rfl, ?_⟩
  show (do
    let sp ← split "" false
    _get obj sp dflt) = .ok obj
  rfl

/-- C5: `put([0], "[1]", 9)` raises the out-of-range `IndexError` (no
auto-extension - the error leaves the list as it was); `put([0], "[0]", 9)`
succeeds and a `get` of `"[0]"` on the result returns 9; and `put` into a
Map with any plain-key path always succeeds, creating the key if absent,
after which `get` returns the stored value. -/
theorem C5_put_bounds_and_map_upsert :
    (put (.vlist [.vint 0]) "[1]" (.vint 9) =
      .error (.indexError "list assignment index out of range")) ∧
    (put (.vlist [.vint 0]) "[0]" (.vint 9) = .ok (.vlist [.vint 9]) ∧
      get (.vlist [.vint 9]) "[0]" none = .ok (.vint 9)) ∧
    (∀ (m : List (String × Value)) (k s : String) (v : Value),
      split k false = .ok [.str s] →
      put (.vdict m) k v = .ok (.vdict (dictSet m s v)) ∧
      get (.vdict (dictSet m s v)) k none = .ok v) := by
  refine ⟨by decide, ⟨by decide, by decide⟩, ?_⟩
  intro m k s v hk
  constructor
  · show (do
      let sp ← split k false
      _leafAct (fun cont kk => pySetItem cont kk v) (.vdict m) [] sp) = _
    rw [hk]
    rfl
  · show (do
      let sp ← split k false
      _get (.vdict (dictSet m s v)) sp none) = .ok v
    rw [hk]
    show _get (.vdict (dictSet m s v)) [.str s] none = .ok v
    simp only [_get, _leaf, _leafW, _contextual_validate, _validate_key_collection_type,
      PathPart.isIterationPoint, Value.isCollection]
    simp only [Bool.not_true, exceptBind_ok, exceptBind_error]
    simp [pyGetItem, dictLookup_dictSet_self]

/-- Witness for the universally quantified Map conjunct of C5: inserting
key `"a"` into the empty Map. -/
theorem C5_put_bounds_and_map_upsert_witness :
    put (.vdict []) "a" (.vint 9) = .ok (.vdict [("a", .vint 9)]) ∧
    get (.vdict [("a", .vint 9)]) "a" none = .ok (.vint 9) :=
  C5_put_bounds_and_map_upsert.2.2 [] "a" "a" (.vint 9) (by decide)

theorem lexPath_wf {cs : List Char} {ts : List RawTok} (h : lexPath cs = some ts) :
    ∀ t ∈ ts, tokWF t := by
  simp only [lexPath] at h
  match h1 : lexAll cs with
  | some ts' =>
    rw [h1] at h
    dsimp only at h
    cases h
    exact (lexAll_spec h1).2.2
  | none =>
    rw [h1] at h
    dsimp only at h
    by_cases hc : cs.getLast? = some '\n'
    · rw [if_pos hc] at h
      exact (lexAll_spec h).2.2
    · rw [if_neg hc] at h
      exact absurd h (by simp)

theorem splitTok_shape {iterable : Bool} {t : RawTok} {p : PathPart}
    (hw : tokWF t) (h : splitTok iterable t = .ok p) :
    (∃ n, p = .int n) ∨
    (∃ k, p = .str k ∧ k ≠ "" ∧ '[' ∉ k.data ∧ '.' ∉ k.data) ∨
    p.isIterationPoint = true := by
  cases t with
  | key k =>
    obtain ⟨hne, hchars⟩ := hw
    simp only [splitTok] at h
    by_cases hstar : '*' ∈ k
    · have hstar' : k.contains '*' = true := by simpa using hstar
      rw [hstar'] at h
      simp only [if_true, exceptBind_ok] at h
      split at h
      · exact absurd h (by simp)
      · refine Or.inr (Or.inr ?_)
        simp only [Except.ok.injEq] at h
        subst h
        rfl
    · have hstar' : k.contains '*' = false := by simpa using hstar
      rw [hstar'] at h
      simp only [Bool.false_eq_true, if_false, exceptBind_ok] at h
      split at h
      · exact absurd h (by simp)
      · refine Or.inr (Or.inl ?_)
        simp only [Except.ok.injEq] at h
        subst h
        refine ⟨⟨k⟩, rfl, ?_, ?_, ?_⟩
        · intro hcon
          exact hne (congrArg String.data hcon)
        · intro hmem
          have := hchars _ hmem
          simp [isKeyChar] at this
        · intro hmem
          have := hchars _ hmem
          simp [isKeyChar] at this
  | idx s =>
    obtain ⟨inner, hsh⟩ := hw
    simp only [splitTok] at h
    by_cases hcolon : ((s.drop 1).dropLast).contains ':'
    · rw [hcolon] at h
      simp only [if_true] at h
      match hps : parseSlice ((s.drop 1).dropLast) with
      | .error e =>
        rw [hps] at h
        exact absurd h (by simp)
      | .ok abc =>
        obtain ⟨a, b, c⟩ := abc
        rw [hps] at h
        simp only [exceptBind_ok] at h
        split at h
        · exact absurd h (by simp)
        · refine Or.inr (Or.inr ?_)
          simp only [Except.ok.injEq] at h
          subst h
          rfl
    · have hcolon' : ((s.drop 1).dropLast).contains ':' = false := by
        simpa using hcolon
      rw [hcolon'] at h
      simp only [Bool.false_eq_true, if_false] at h
      by_cases hemp : (s.drop 1).dropLast = []
      · rw [if_neg (fun hcon => hcon hemp)] at h
        simp only [exceptBind_ok] at h
        split at h
        · exact absurd h (by simp)
        · refine Or.inr (Or.inr ?_)
          simp only [Except.ok.injEq] at h
          subst h
          rfl
      · rw [if_pos hemp] at h
        match hn : pyIntOfNum ((s.drop 1).dropLast) with
        | none =>
          rw [hn] at h
          exact absurd h (by simp)
        | some n =>
          rw [hn] at h
          simp only [exceptBind_ok, PathPart.isIterationPoint, Bool.and_false,
            Bool.false_eq_true, if_false, Except.ok.injEq] at h
          subst h
          exact Or.inl ⟨n, rfl⟩

theorem _split_match_shape {iterable : Bool} {ts : List RawTok} {ps : List PathPart}
    (hw : ∀ t ∈ ts, tokWF t) (h : _split_match iterable ts = .ok ps) :
    ∀ p ∈ ps, (∃ n, p = .int n) ∨
      (∃ k, p = .str k ∧ k ≠ "" ∧ '[' ∉ k.data ∧ '.' ∉ k.data) ∨
      p.isIterationPoint = true := by
  induction ts generalizing ps with
  | nil =>
    simp only [_split_match, Except.ok.injEq] at h
    subst h
    simp
  | cons t rest ih =>
    simp only [_split_match] at h
    match h1 : splitTok iterable t with
    | .error e => rw [h1] at h; exact absurd h (by simp)
    | .ok p0 =>
      rw [h1] at h
      simp only [exceptBind_ok] at h
      match h2 : _split_match iterable rest with
      | .error e => rw [h2] at h; exact absurd h (by simp)
      | .ok ps' =>
        rw [h2] at h
        simp only [exceptBind_ok, Except.ok.injEq] at h
        subst h
        intro p hp
        rcases List.mem_cons.mp hp with hp | hp
        · subst hp
          exact splitTok_shape (hw t (by simp)) h1
        · exact ih (fun u hu => hw u (by simp [hu])) h2 p hp

/-- C3 (amended): every non-iteration component produced by `split` from a
grammar-valid path string is either an integer index (possibly negative -
the grammar accepts a sign) or a non-empty string key containing neither
`[` nor `.` (a key may contain `]`). -/
theorem C3_component_shape {path : String} {iterable : Bool} {ps : List PathPart}
    (h : split path iterable = .ok ps) :
    ∀ p ∈ ps, (∃ n, p = .int n) ∨
      (∃ k, p = .str k ∧ k ≠ "" ∧ '[' ∉ k.data ∧ '.' ∉ k.data) ∨
      p.isIterationPoint = true := by
  simp only [split] at h
  by_cases hemp : path = ""
  · rw [if_pos hemp] at h
    simp only [Except.ok.injEq] at h
    subst h
    simp
  · rw [if_neg hemp] at h
    match h1 : lexPath path.data with
    | none => rw [h1] at h; exact absurd h (by simp)
    | some ts =>
      rw [h1] at h
      exact _split_match_shape (lexPath_wf h1) h

/-- Witness for C3: the integer component of `split("a[0]")`. -/
theorem C3_component_shape_witness :
    (∃ n, PathPart.int 0 = PathPart.int n) ∨
    (∃ k, PathPart.int 0 = PathPart.str k ∧ k ≠ "" ∧
      '[' ∉ k.data ∧ '.' ∉ k.data) ∨
    (PathPart.int 0).isIterationPoint = true :=
  @C3_component_shape "a[0]" false [.str "a", .int 0] (by decide) (.int 0) (by decide)

/-- C3 counterexample: the claim as stated is false - `[-1]` is
grammar-valid and splits to the negative index `-1`, and `a]b` is
grammar-valid and splits to a key containing `]`. -/
theorem C3_counterexample :
    split "[-1]" false = .ok [.int (-1)] ∧ ((-1 : Int) < 0) ∧
    split "a]b" false = .ok [.str "a]b"] ∧ (']' ∈ ("a]b" : String).data) := by
  refine ⟨by decide, by decide, by decide, by decide⟩

/-!
## Discard: idempotence and error discipline (claim C6)
-/

theorem dictLookup_dictRemove (m : List (String × Value)) (k : String) :
    dictLookup (dictRemove m k) k = none := by
  induction m with
  | nil => rfl
  | cons e rest ih =>
    obtain ⟨k', v'⟩ := e
    by_cases hk : k' = k
    · simpa [dictRemove, List.filter_cons, hk] using ih
    · simp only [dictRemove, List.filter_cons] at ih ⊢
      have hd : (decide ¬(k', v').1 = k) = true := by simpa using hk
      rw [hd]
      simp only [if_true]
      simp only [dictLookup, List.find?_cons] at ih ⊢
      have : ((k', v').1 == k) = false := by simpa using hk
      rw [this]
      exact ih

theorem dictRemove_of_lookup_none {m : List (String × Value)} {k : String}
    (h : dictLookup m k = none) : dictRemove m k = m := by
  induction m with
  | nil => rfl
  | cons e rest ih =>
    obtain ⟨k', v'⟩ := e
    simp only [dictLookup, List.find?_cons] at h
    by_cases hk : k' = k
    · rw [show ((k', v').1 == k) = true by simpa using hk] at h
      simp at h
    · rw [show ((k', v').1 == k) = false by simpa using hk] at h
      have ih' := ih (by simpa [dictLookup] using h)
      simp only [dictRemove, List.filter_cons] at ih' ⊢
      rw [show (decide ¬(k', v').1 = k) = true by simpa using hk]
      simp only [if_true]
      rw [ih']

theorem dictRemove_dictRemove (m : List (String × Value)) (k : String) :
    dictRemove (dictRemove m k) k = dictRemove m k :=
  dictRemove_of_lookup_none (dictLookup_dictRemove m k)

theorem dictSet_dictSet (m : List (String × Value)) (k : String) (v w : Value) :
    dictSet (dictSet m k v) k w = dictSet m k w := by
  induction m with
  | nil => simp [dictSet]
  | cons e rest ih =>
    obtain ⟨k', v'⟩ := e
    by_cases hk : k' = k
    · simp [dictSet, hk]
    · simp [dictSet, hk, ih]

theorem dictSet_lookup_self {m : List (String × Value)} {k : String} {v : Value}
    (h : dictLookup m k = some v) : dictSet m k v = m := by
  induction m with
  | nil => simp [dictLookup] at h
  | cons e rest ih =>
    obtain ⟨k', v'⟩ := e
    simp only [dictLookup, List.find?_cons] at h
    by_cases hk : k' = k
    · rw [show ((k', v').1 == k) = true by simpa using hk] at h
      simp only [Option.some.injEq] at h
      simp [dictSet, hk, ← h]
    · rw [show ((k', v').1 == k) = false by simpa using hk] at h
      have ih' := ih (by simpa [dictLookup] using h)
      simp [dictSet, hk, ih']

theorem listGetD_set_self (xs : List Value) (i : Nat) (v : Value) (h : i < xs.length) :
    (xs.set i v).getD i .vnone = v := by
  rw [List.getD_eq_getElem?_getD, List.getElem?_set_self (by simpa using h)]
  rfl

theorem listSet_getD_self (xs : List Value) (i : Nat) (h : i < xs.length) :
    xs.set i (xs.getD i .vnone) = xs := by
  have hgd : xs.getD i .vnone = xs[i] := by
    rw [List.getD_eq_getElem?_getD, List.getElem?_eq_getElem h]
    rfl
  rw [hgd]
  apply List.ext_getElem
  · simp
  · intro n h1 h2
    by_cases hn : i = n
    · subst hn
      simp [List.getElem_set]
    · rw [List.getElem_set_of_ne hn]

/-- A successful contextual validation happens exactly on list/int and
dict/str pairs. -/
theorem validate_ok_cases {at_path : List PathPart} {obj : Value} {k : PathPart}
    (h : _contextual_validate at_path obj k = .ok ()) :
    (∃ xs i, obj = .vlist xs ∧ k = .int i) ∨
    (∃ m s, obj = .vdict m ∧ k = .str s) := by
  simp only [_contextual_validate] at h
  match h1 : _validate_key_collection_type obj k with
  | .error e =>
    rw [h1] at h
    dsimp only at h
    split at h <;> simp at h
  | .ok _ =>
    cases k <;> cases obj <;>
      first
        | exact Or.inl ⟨_, _, rfl, rfl⟩
        | exact Or.inr ⟨_, _, rfl, rfl⟩
        | simp [_validate_key_collection_type, PathPart.isIterationPoint,
            Value.isCollection] at h1

/-- `discardAct` on a dict always succeeds and leaves the key absent. -/
theorem discardAct_dict (m : List (String × Value)) (s : String) :
    discardAct (.vdict m) (.str s) = .ok (.vdict (dictRemove m s)) := by
  simp only [discardAct, pyDelItem]
  match hl : dictLookup m s with
  | some v => rfl
  | none =>
    simp only [PyErr.isLookupError, if_true]
    rw [dictRemove_of_lookup_none hl]

/-- `discardAct` is a no-op when the entry is already absent. -/
theorem discardAct_noop {cont : Value} {k : PathPart} {e : PyErr}
    {at_path : List PathPart}
    (hv : _contextual_validate at_path cont k = .ok ())
    (hg : pyGetItem cont k = .error e) :
    discardAct cont k = .ok cont := by
  rcases validate_ok_cases hv with ⟨xs, i, hobj, hk⟩ | ⟨m, s, hobj, hk⟩
  · subst hobj hk
    simp only [pyGetItem, pyListGet] at hg
    simp only [discardAct, pyDelItem, pyListDel]
    split at hg
    · simp at hg
    · split at hg
      · simp at hg
      · rename_i h1 h2
        rw [if_neg h1, if_neg h2]
        rfl
  · subst hobj hk
    simp only [pyGetItem] at hg
    match hl : dictLookup m s with
    | some v => rw [hl] at hg; simp at hg
    | none =>
      simp only [discardAct, pyDelItem, hl]
      rfl

theorem validate_list_int (at_path : List PathPart) (xs : List Value) (i : Int) :
    _contextual_validate at_path (.vlist xs) (.int i) = .ok () := rfl

theorem validate_dict_str (at_path : List PathPart) (m : List (String × Value)) (s : String) :
    _contextual_validate at_path (.vdict m) (.str s) = .ok () := rfl

theorem pyListGet_set {xs : List Value} {i : Int} {child : Value} (c : Value)
    (h : pyListGet xs i = .ok child) :
    pyListGet (xs.set (if i < 0 then (i + xs.length).toNat else i.toNat) c) i = .ok c := by
  simp only [pyListGet] at h ⊢
  by_cases h1 : 0 ≤ i ∧ i < (xs.length : Int)
  · have hni : ¬i < 0 := by omega
    rw [if_neg hni]
    simp only [List.length_set]
    rw [if_pos h1]
    rw [listGetD_set_self _ _ _ (by omega)]
  · by_cases h2 : -(xs.length : Int) ≤ i ∧ i < 0
    · rw [if_pos h2.2]
      simp only [List.length_set]
      rw [if_neg h1, if_pos h2]
      rw [listGetD_set_self _ _ _ (by omega)]
    · rw [if_neg h1, if_neg h2] at h
      simp at h

theorem pyGetItem_setChild {obj child : Value} {k : PathPart} (c : Value)
    (h : pyGetItem obj k = .ok child) :
    pyGetItem (setChild obj k c) k = .ok c := by
  cases obj <;> cases k <;>
    simp_all [pyGetItem, setChild, dictLookup_dictSet_self]
  exact pyListGet_set c h

theorem setChild_self {obj child : Value} {k : PathPart}
    (h : pyGetItem obj k = .ok child) : setChild obj k child = obj := by
  cases obj <;> cases k <;> simp_all [pyGetItem, setChild]
  case vlist.int xs i =>
    simp only [pyListGet] at h
    by_cases h1 : 0 ≤ i ∧ i < (xs.length : Int)
    · have hni : ¬i < 0 := by omega
      rw [if_pos h1] at h
      rw [if_neg hni]
      simp only [Except.ok.injEq] at h
      rw [← h]
      exact listSet_getD_self _ _ (by omega)
    · by_cases h2 : -(xs.length : Int) ≤ i ∧ i < 0
      · rw [if_neg h1, if_pos h2] at h
        rw [if_pos h2.2]
        simp only [Except.ok.injEq] at h
        rw [← h]
        exact listSet_getD_self _ _ (by omega)
      · rw [if_neg h1, if_neg h2] at h
        simp at h
  case vdict.str m s =>
    match hl : dictLookup m s with
    | some v =>
      rw [hl] at h
      injection h with h2
      subst h2
      exact dictSet_lookup_self hl
    | none => rw [hl] at h; simp at h

theorem setChild_setChild {obj : Value} {k : PathPart} (c : Value) :
    setChild (setChild obj k c) k c = setChild obj k c := by
  cases obj <;> cases k <;>
    simp [setChild, dictSet_dictSet, List.length_set, List.set_set]

theorem validate_setChild_ok {at2 at1 : List PathPart} {obj : Value} {k : PathPart}
    (c : Value) (hv : _contextual_validate at1 obj k = .ok ()) :
    _contextual_validate at2 (setChild obj k c) k = .ok () := by
  rcases validate_ok_cases hv with ⟨xs, i, hT, hk⟩ | ⟨m, s, hT, hk⟩ <;> subst hT hk <;> rfl

theorem leafAct_discard_idem {sp : List PathPart} {s : String} :
    ∀ {at1 : List PathPart} {T T' : Value},
    sp.getLast? = some (.str s) →
    _leafAct discardAct T at1 sp = .ok T' →
    ∀ at2, _leafAct discardAct T' at2 sp = .ok T' := by
  induction sp with
  | nil => intro at1 T T' hlast h; simp [_leafAct] at h
  | cons k rest ih =>
    intro at1 T T' hlast h at2
    match hrest : rest with
    | [] =>
      subst hrest
      have hk : k = .str s := by
        simpa using hlast
      subst hk
      simp only [_leafAct] at h ⊢
      match hv : _contextual_validate at1 T (.str s) with
      | .error e => rw [hv] at h; simp at h
      | .ok u =>
        cases u
        rw [hv] at h
        simp only [exceptBind_ok] at h
        rcases validate_ok_cases hv with ⟨xs, i, hT, hki⟩ | ⟨m, s', hT, hks⟩
        · exact absurd hki (by simp)
        · cases hks
          subst hT
          rw [discardAct_dict] at h
          simp only [Except.ok.injEq] at h
          subst h
          rw [validate_dict_str]
          simp only [exceptBind_ok]
          rw [discardAct_dict, dictRemove_dictRemove]
    | r1 :: rs =>
      subst hrest
      simp only [_leafAct] at h ⊢
      match hv : _contextual_validate at1 T k with
      | .error e => rw [hv] at h; simp at h
      | .ok u =>
        cases u
        rw [hv] at h
        simp only [exceptBind_ok] at h
        match hg : pyGetItem T k with
        | .error e => rw [hg] at h; simp at h
        | .ok child =>
          rw [hg] at h
          dsimp only at h
          match hrec : _leafAct discardAct child (at1 ++ [k]) (r1 :: rs) with
          | .error e => rw [hrec] at h; simp at h
          | .ok child' =>
            rw [hrec] at h
            simp only [exceptBind_ok, Except.ok.injEq] at h
            subst h
            have hlast' : (r1 :: rs).getLast? = some (.str s) := by
              rw [← List.getLast?_cons_cons (l := rs) (a := k) (b := r1)]
              exact hlast
            have ihc := ih hlast' hrec (at2 ++ [k])
            rw [validate_setChild_ok child' hv]
            simp only [exceptBind_ok]
            rw [pyGetItem_setChild child' hg]
            dsimp only
            rw [ihc]
            simp only [exceptBind_ok, Except.ok.injEq]
            exact setChild_setChild child'

theorem leafAct_discard_noop {sp : List PathPart} :
    ∀ {at1 : List PathPart} {T cont : Value} {k : PathPart} {e : PyErr},
    _leafW T at1 sp = .ok (cont, k) →
    pyGetItem cont k = .error e →
    _leafAct discardAct T at1 sp = .ok T := by
  induction sp with
  | nil => intro at1 T cont k e hleaf hget; simp [_leafW] at hleaf
  | cons k0 rest ih =>
    intro at1 T cont k e hleaf hget
    match hrest : rest with
    | [] =>
      subst hrest
      simp only [_leafW] at hleaf
      match hv : _contextual_validate at1 T k0 with
      | .error e' => rw [hv] at hleaf; simp at hleaf
      | .ok u =>
        cases u
        rw [hv] at hleaf
        simp only [exceptBind_ok, Except.ok.injEq, Prod.mk.injEq] at hleaf
        obtain ⟨hT, hk⟩ := hleaf
        subst hT hk
        simp only [_leafAct]
        rw [hv]
        simp only [exceptBind_ok]
        exact discardAct_noop hv hget
    | r1 :: rs =>
      subst hrest
      simp only [_leafW] at hleaf
      match hv : _contextual_validate at1 T k0 with
      | .error e' => rw [hv] at hleaf; simp at hleaf
      | .ok u =>
        cases u
        rw [hv] at hleaf
        simp only [exceptBind_ok] at hleaf
        match hg : pyGetItem T k0 with
        | .error e' => rw [hg] at hleaf; simp at hleaf
        | .ok child =>
          rw [hg] at hleaf
          dsimp only at hleaf
          have ihc := ih hleaf hget
          simp only [_leafAct]
          rw [hv]
          simp only [exceptBind_ok]
          rw [hg]
          dsimp only
          rw [ihc]
          simp only [exceptBind_ok, Except.ok.injEq]
          exact setChild_self hg

/-- C6 (amended): `discard` is idempotent for paths whose final component
is a Map key - for an integer-final path a successful delete shifts the
later indexes, so a second `discard` can remove another element; it never
raises when the walk reaches the final container and only the leaf entry
is absent (the tree is returned unchanged); and it still raises a
`PathLookupError` when an intermediate path segment is missing and a
validation error when a type contract is violated. -/
theorem C6_discard_idempotent_and_safe :
    (∀ (T T' : Value) (p : String) (sp : List PathPart) (s : String),
      split p false = .ok sp → sp.getLast? = some (.str s) →
      discard T p = .ok T' → discard T' p = .ok T') ∧
    (∀ (T cont : Value) (p : String) (sp : List PathPart) (k : PathPart) (e : PyErr),
      split p false = .ok sp → _leaf T sp = .ok (cont, k) →
      pyGetItem cont k = .error e → discard T p = .ok T) ∧
    discard (.vdict []) "a.b" =
      .error (.pathLookupError ": could not find key/index 'a'") ∧
    discard (.vlist []) "a" =
      .error (.typeMismatchValidationError "a: str key requires dict, got list") := by
  refine ⟨?_, ?_, by decide, by decide⟩
  · intro T T' p sp s hsp hlast h
    simp only [discard, hsp, exceptBind_ok] at h ⊢
    exact leafAct_discard_idem hlast h []
  · intro T cont p sp k e hsp hleaf hget
    simp only [_leaf] at hleaf
    simp only [discard, hsp, exceptBind_ok]
    exact leafAct_discard_noop hleaf hget

/-- Witness for C6's quantified conjuncts: discarding the only key of a
Map twice, and discarding an already-absent key without raising. -/
theorem C6_discard_witness :
    discard (.vdict []) "a" = .ok (.vdict []) ∧
    discard (.vdict [("x", .vint 1)]) "y" = .ok (.vdict [("x", .vint 1)]) :=
  ⟨C6_discard_idempotent_and_safe.1 (.vdict [("a", .vint 1)]) (.vdict []) "a"
      [.str "a"] "a" (by decide) (by decide) (by decide),
   C6_discard_idempotent_and_safe.2.1 (.vdict [("x", .vint 1)]) (.vdict [("x", .vint 1)])
      "y" [.str "y"] (.str "y") (.keyError "'y'") (by decide) (by decide) (by decide)⟩

/-- C6 counterexample: `discard` is not idempotent as claimed - deleting
index 0 of `[10, 20]` gives `[20]`, and a second discard of the same path
deletes the shifted element, giving `[]`. -/
theorem C6_counterexample :
    discard (.vlist [.vint 10, .vint 20]) "[0]" = .ok (.vlist [.vint 20]) ∧
    discard (.vlist [.vint 20]) "[0]" = .ok (.vlist []) ∧
    Value.vlist [] ≠ .vlist [.vint 20] := by
  refine ⟨by decide, by decide, by decide⟩

/-!
## The iterator engine (`_base.py` lines 212-289; `types.py` lines 17-127)
-/

/-- Split a character list on `'*'` (Python `str.split('*')`). -/
def splitOnStar : List Char → List (List Char)
  | [] => [[]]
  | c :: rest =>
    match splitOnStar rest with
    | [] => [[c]]
    | h :: t => if c = '*' then [] :: h :: t else (c :: h) :: t

/-- Drop everything up to and including the first occurrence of `frag` in
`key` (the lazy `.*?frag`); `none` when `frag` does not occur. -/
def dropAfterFirstOccur (frag : List Char) : List Char → Option (List Char)
  | [] => if frag = [] then some [] else none
  | c :: rest =>
    if frag.isPrefixOf (c :: rest) then some ((c :: rest).drop frag.length)
    else dropAfterFirstOccur frag rest

/-- Match the remaining pattern fragments: `.*?f` for every middle
fragment, `.*?f$` for the last one, and `$` when no fragment remains. -/
def fragsTail : List (List Char) → List Char → Bool
  | [], key => key.isEmpty
  | [f], key => f.isSuffixOf key
  | f :: rest, key =>
    match dropAfterFirstOccur f key with
    | none => false
    | some key' => fragsTail rest key'

/-- `_StarIterationPoint._match(key)`: the source compiles
`'^' + '.*?'.join(map(re.escape, pattern.split('*'))) + '$'` (and matches
everything for the bare `'*'`); this accepts exactly the keys in which the
literal fragments occur in order, the first anchored at the start and the
last at the end. -/
def starIterMatch (pattern key : String) : Bool :=
  if pattern = "*" then true
  else
    match splitOnStar pattern.data with
    | [] => false
    | f0 :: rest =>
      if f0.isPrefixOf key.data then fragsTail rest (key.data.drop f0.length)
      else false

/-- `_IterationPoint.check(collection)` for the three subclasses
(`types.py`; the source spells "preceeded"). -/
def iterCheck (p : PathPart) (collection : Value) : Except PyErr Unit :=
  match p with
  | .listIter _ =>
    match collection with
    | .vlist _ => .ok ()
    | _ => .error (.invalidIterationError "[] must be preceeded by a list")
  | .rangeIter _ _ _ _ =>
    match collection with
    | .vlist _ => .ok ()
    | _ => .error (.invalidIterationError "[] must be preceeded by a list")
  | .starIter _ =>
    match collection with
    | .vdict _ => .ok ()
    | _ => .error (.invalidIterationError "*-keys must be preceeded by a dict")
  | _ => .error (.typeError "bug: not an iteration point")

/-- The number of elements of Python `range(start, stop, step)`
(`step` is never 0 here: `_parse_slice` raised before constructing it). -/
def rangeLen (start stop step : Int) : Nat :=
  if 0 < step then
    if stop ≤ start then 0 else ((stop - start).toNat + step.toNat - 1) / step.toNat
  else
    if start ≤ stop then 0 else ((start - stop).toNat + (-step).toNat - 1) / (-step).toNat

/-- The elements of Python `range(start, stop, step)` in order. -/
def rangeList (start stop step : Int) : List Int :=
  (List.range (rangeLen start stop step)).map (fun j => start + step * j)

/-- `_RangeIterationPoint.iter`: yield `collection[index]` for each range
index, stopping at the first `IndexError`. -/
def rangeIterPairs (xs : List Value) : List Int → List (PathPart × Value)
  | [] => []
  | i :: rest =>
    match pyListGet xs i with
    | .ok v => (.int i, v) :: rangeIterPairs xs rest
    | .error _ => []

/-- `_IterationPoint.iter(collection)` as a `(key, element)` list:
`enumerate` for `[]`, range indexing for slices, filtered `items()` for
`*`-keys. -/
def iterPairs (p : PathPart) (collection : Value) : List (PathPart × Value) :=
  match p, collection with
  | .listIter _, .vlist xs => xs.enum.map (fun iv => (.int (iv.1 : Int), iv.2))
  | .rangeIter _ a b c, .vlist xs => rangeIterPairs xs (rangeList a b c)
  | .starIter pat, .vdict m =>
    (m.filter (fun kv => starIterMatch pat kv.1)).map (fun kv => (.str kv.1, kv.2))
  | _, _ => []

/-- The index of the first iteration point of a split path, if any. -/
def firstIterIdx : List PathPart → Option Nat
  | [] => none
  | p :: rest =>
    if p.isIterationPoint then some 0
    else (firstIterIdx rest).map (· + 1)

theorem firstIterIdx_ne_nil {sp : List PathPart} {i : Nat}
    (h : firstIterIdx sp = some i) : sp ≠ [] := by
  intro hcon
  subst hcon
  simp [firstIterIdx] at h

mutual

/-- `_iterate(obj, split_path, base_path, default)` (`_base.py` lines
244-289), with the lazy generator collected into a list; an exception
raised mid-generation discards the earlier yields (every claim evaluates
either a full run or the raised exception). -/
def _iterate (obj : Value) (sp base : List PathPart) (dflt : Option Value) :
    Except PyErr (List (String × Value)) :=
  if !obj.isCollection then
    .error (.validationError (join (base ++ sp) ++ ": must be list/dict"))
  else
    match h : firstIterIdx sp with
    | none => do
      let v ← _get obj sp dflt
      .ok [(join (base ++ sp), v)]
    | some i =>
      let before := sp.take i
      let iter_point := sp.getD i (.listIter "[]")
      let after := sp.drop (i + 1)
      match _get obj before none with
      | .error e =>
        if e matches .pathLookupError _ then .error e
        else if e.isLookupError then
          .error (.pathLookupError
            ((let pfx := join (base ++ before.dropLast)
              if pfx = "" then "<root>" else pfx) ++
              ": could not find collection at key/index " ++
              pyReprPart (before.getLast?.getD (.str "")) ++ " to iterate"))
        else .error e
      | .ok collection => do
        let _ ← iterCheck iter_point collection
        _iterateElems (iterPairs iter_point collection) after (base ++ before) dflt
termination_by (2 * sp.length, 0)
decreasing_by
  apply Prod.Lex.left
  have hne : sp ≠ [] := firstIterIdx_ne_nil h
  have hpos : 0 < sp.length := List.length_pos.mpr hne
  simp only [List.length_drop]
  omega

/-- The `for key, element in iter_point.iter(collection)` loop of
`_iterate`: recurse into each element when a suffix remains, else yield
`(join(key_split_path), element)`. -/
def _iterateElems (pairs : List (PathPart × Value)) (after base' : List PathPart)
    (dflt : Option Value) : Except PyErr (List (String × Value)) :=
  match pairs with
  | [] => .ok []
  | (key, element) :: rest => do
    let rs ←
      if after.isEmpty then .ok [(join (base' ++ [key]), element)]
      else _iterate element after (base' ++ [key]) dflt
    let more ← _iterateElems rest after base' dflt
    .ok (rs ++ more)
termination_by (2 * after.length + 1, pairs.length)
decreasing_by
  · apply Prod.Lex.right
    simp only [List.length_cons]
    omega
  · apply Prod.Lex.left
    omega

end

/-- `iterate(obj, path, default=NO_DEFAULT)` (lines 212-241). -/
def iterate (obj : Value) (path : String) (dflt : Option Value) :
    Except PyErr (List (String × Value)) := do
  let sp ← split path true
  _iterate obj sp [] dflt

theorem firstIterIdx_append_iter {before : List PathPart} {q : PathPart}
    (hb : ∀ p ∈ before, p.isIterationPoint = false) (hq : q.isIterationPoint = true) :
    firstIterIdx (before ++ [q]) = some before.length := by
  induction before with
  | nil => simp [firstIterIdx, hq]
  | cons p rest ih =>
    have hp : p.isIterationPoint = false := hb p (by simp)
    have ih' := ih (fun u hu => hb u (by simp [hu]))
    simp [firstIterIdx, hp, ih']

theorem iterateElems_after_nil (pairs : List (PathPart × Value))
    (base' : List PathPart) (dflt : Option Value) :
    _iterateElems pairs [] base' dflt =
      .ok (pairs.map fun kv => (join (base' ++ [kv.1]), kv.2)) := by
  induction pairs with
  | nil => rw [_iterateElems]; rfl
  | cons kv rest ih =>
    obtain ⟨key, element⟩ := kv
    rw [_iterateElems]
    simp only [List.isEmpty_nil, if_true, exceptBind_ok, ih]
    rfl

/-- C4: `iterate({'a': [1, 2, 3]}, "a[]")` yields exactly
`("a[0]", 1), ("a[1]", 2), ("a[2]", 3)` in that order; and in general a
trailing `[]` iteration over a resolved List enumerates every index in
ascending order, pairing each rendered path with the element in encounter
order (Python `enumerate`). -/
theorem C4_list_iteration :
    (iterate (.vdict [("a", .vlist [.vint 1, .vint 2, .vint 3])]) "a[]" none =
      .ok [("a[0]", .vint 1), ("a[1]", .vint 2), ("a[2]", .vint 3)]) ∧
    (∀ (obj : Value) (path : String) (before : List PathPart) (raw : String)
        (xs : List Value),
      split path true = .ok (before ++ [.listIter raw]) →
      (∀ p ∈ before, p.isIterationPoint = false) →
      obj.isCollection = true →
      _get obj before none = .ok (.vlist xs) →
      iterate obj path none =
        .ok (xs.enum.map fun iv => (join (before ++ [.int (iv.1 : Int)]), iv.2))) := by
  have hgen : ∀ (obj : Value) (path : String) (before : List PathPart) (raw : String)
      (xs : List Value),
      split path true = .ok (before ++ [.listIter raw]) →
      (∀ p ∈ before, p.isIterationPoint = false) →
      obj.isCollection = true →
      _get obj before none = .ok (.vlist xs) →
      iterate obj path none =
        .ok (xs.enum.map fun iv => (join (before ++ [.int (iv.1 : Int)]), iv.2)) := by
    intro obj path before raw xs hsplit hnoiter hcoll hget
    simp only [iterate, hsplit, exceptBind_ok]
    rw [_iterate]
    rw [hcoll]
    simp only [Bool.not_true, Bool.false_eq_true, if_false]
    rw [firstIterIdx_append_iter hnoiter (by rfl)]
    dsimp only
    have htake : (before ++ [PathPart.listIter raw]).take before.length = before :=
      List.take_left before _
    have hgetd : (before ++ [PathPart.listIter raw]).getD before.length
        (.listIter "[]") = .listIter raw := by
      rw [List.getD_eq_getElem?_getD, List.getElem?_concat_length]
      rfl
    have hdrop : (before ++ [PathPart.listIter raw]).drop (before.length + 1) = [] := by
      apply List.drop_eq_nil_of_le
      simp
    rw [htake, hgetd, hdrop, hget]
    show (do
      let _ ← iterCheck (.listIter raw) (.vlist xs)
      _iterateElems (iterPairs (.listIter raw) (.vlist xs)) [] ([] ++ before) none) = _
    simp only [iterCheck, exceptBind_ok, iterPairs, List.nil_append]
    rw [iterateElems_after_nil]
    simp [List.map_map, Function.comp]
  refine ⟨?_, hgen⟩
  have h1 := hgen (.vdict [("a", .vlist [.vint 1, .vint 2, .vint 3])]) "a[]"
    [.str "a"] "[]" [.vint 1, .vint 2, .vint 3]
    (by decide) (by decide) (by decide) (by decide)
  rw [h1]
  decide

/-- Witness for C4's general conjunct at a nested input:
`iterate({'r': {'l': [7, 8]}}, "r.l[]")`. -/
theorem C4_list_iteration_witness :
    iterate (.vdict [("r", .vdict [("l", .vlist [.vint 7, .vint 8])])]) "r.l[]" none =
      .ok (([.vint 7, .vint 8] : List Value).enum.map
        fun iv => (join ([.str "r", .str "l"] ++ [.int (iv.1 : Int)]), iv.2)) :=
  C4_list_iteration.2 (.vdict [("r", .vdict [("l", .vlist [.vint 7, .vint 8])])])
    "r.l[]" [.str "r", .str "l"] "[]" [.vint 7, .vint 8]
    (by decide) (by decide) (by decide) (by decide)

/-!
## Fold / unfold (`folding.py`)

`unfold_path_dict` is modelled with the default (identity) `UnfoldProcessor`
and `root_path=True`, which is what every claim uses.  Two pieces of CPython
behaviour are modelled explicitly because the source depends on them:

* iterating `path_dict.items()` while `setdefault` inserts a new key raises
  `RuntimeError('dictionary changed size during iteration')` at the next
  `next()` call (the size check precedes the exhaustion check, so it fires
  even after the last entry);
* the `while` loop guards itself with `safety_limit = 1000000` and raises
  `RuntimeError('hit loop safety limit')` when it reaches zero - that
  counter is the model's structural fuel, so no artificial bound is added.
-/

mutual

/-- `_fold_path_dict(path_dict, at_path, element)` (`folding.py` lines
147-162), returning the entries appended (depth-first): lists and dicts
recurse into their children with the key appended; any other value is a
leaf recorded at `join(at_path)`; a non-collection at an empty `at_path`
raises `ValidationError('root must be list/dict')`. -/
def _fold_path_dict (at_path : List PathPart) : Value → Except PyErr (List (String × Value))
  | .vlist xs => _foldList at_path 0 xs
  | .vdict m => _foldDict at_path m
  | v =>
    if at_path ≠ [] then .ok [(join at_path, v)]
    else .error (.validationError "root must be list/dict")

/-- `for key, value in enumerate(element)` of `_fold_path_dict`. -/
def _foldList (at_path : List PathPart) (i : Int) :
    List Value → Except PyErr (List (String × Value))
  | [] => .ok []
  | x :: rest => do
    let h ← _fold_path_dict (at_path ++ [.int i]) x
    let t ← _foldList at_path (i + 1) rest
    .ok (h ++ t)

/-- `for key, value in element.items()` of `_fold_path_dict`. -/
def _foldDict (at_path : List PathPart) :
    List (String × Value) → Except PyErr (List (String × Value))
  | [] => .ok []
  | kv :: rest => do
    let h ← _fold_path_dict (at_path ++ [.str kv.1]) kv.2
    let t ← _foldDict at_path rest
    .ok (h ++ t)

end

/-- `fold_path_dict(root, root_path='')` (lines 134-144). -/
def fold_path_dict (root : Value) (root_path : String) :
    Except PyErr (List (String × Value)) := do
  let at_path ← split root_path false
  _fold_path_dict at_path root

/-- `dict.setdefault(key, default)`: the existing value, or the default
newly inserted at the end (insertion order). -/
def pySetdefault (pd : List (String × Value)) (k : String) (dflt : Value) :
    Value × List (String × Value) :=
  match dictLookup pd k with
  | some v => (v, pd)
  | none => (dflt, pd ++ [(k, dflt)])

/-- Stable insertion of one `(index, value)` pair (ascending index). -/
def insertPair (p : Int × Value) : List (Int × Value) → List (Int × Value)
  | [] => [p]
  | q :: rest => if p.1 ≤ q.1 then p :: q :: rest else q :: insertPair p rest

/-- `partial_list.sort()`: a stable sort by index.  (Python compares full
tuples; the value components only break index ties, which never changes
the observable outcome here - duplicate indexes fail the contiguity check
with the same message regardless of their order.) -/
def sortPairs : List (Int × Value) → List (Int × Value)
  | [] => []
  | p :: rest => insertPair p (sortPairs rest)

/-- The `for index, value in partial_list` scan of
`_complete_partial_list`: require each index to be `last_index + 1`. -/
def completeScan : List (Int × Value) → Int → Except PyErr (List Value)
  | [], _ => .ok []
  | (i, v) :: rest, last =>
    if i ≠ last + 1 then
      .error (.validationError ("did not find index " ++ toString (last + 1)))
    else do
      let t ← completeScan rest i
      .ok (v :: t)

/-- `_complete_partial_list(partial_list)` (`folding.py` lines 116-131):
sort the `(index, value)` pairs, require the indexes to form exactly
`0..n-1`, and return the values in order. -/
def _completePartialList (l : List (Int × Value)) : Except PyErr (List Value) :=
  completeScan (sortPairs l) (-1)

/-- Read a stored `PartialList` back as `(index, value)` pairs; any other
element shape would make Python fail tuple unpacking (`TypeError`). -/
def asPairs : List Value → Except PyErr (List (Int × Value))
  | [] => .ok []
  | .vpair (.vint i) v :: rest => do
    let t ← asPairs rest
    .ok ((i, v) :: t)
  | _ :: _ => .error (.typeError "cannot unpack non-tuple partial list element")

/-- One processed entry of the `for path, value in path_dict.items()` loop
(`folding.py` lines 81-101): skip entries whose split length differs from
`path_length`; otherwise choose the parent's default container from the
final component's kind, `setdefault` it, and append/assign - mismatched
container/key kinds raise the inconsistent-types `ValidationError`.  The
default processor's `process_leaf` is the identity. -/
def unfoldProcessEntry (pd : List (String × Value)) (path_length : Int)
    (path : String) (value : Value) (did : Bool) :
    Except PyErr (List (String × Value) × Bool) := do
  let split_path ← split path false
  if (split_path.length : Int) ≠ path_length then .ok (pd, did)
  else
    match split_path.getLast? with
    | none => .error (.indexError "tuple index out of range")
    | some key =>
      let parent := join split_path.dropLast
      match key with
      | .int i =>
        let cp := pySetdefault pd parent (.vlist [])
        match cp.1 with
        | .vlist l =>
          .ok (dictSet cp.2 parent (.vlist (l ++ [.vpair (.vint i) value])), true)
        | c =>
          .error (.validationError ("inconsistent types: parent " ++ pyReprStr parent ++
            " has type " ++ c.typeName ++ " key/index " ++ pyReprPart key))
      | .str sk =>
        let cp := pySetdefault pd parent (.vdict [])
        match cp.1 with
        | .vdict mm =>
          .ok (dictSet cp.2 parent (.vdict (dictSet mm sk value)), true)
        | c =>
          .error (.validationError ("inconsistent types: parent " ++ pyReprStr parent ++
            " has type " ++ c.typeName ++ " key/index " ++ pyReprPart key))
      | _ => .error (.typeError "unsupported path part type")

/-- The `for path, value in path_dict.items()` loop with CPython's
size-change detection: each `next()` first compares the current size with
the size at iterator creation (`n0`) and raises the RuntimeError on
mismatch, then yields the entry at the current position.  `fuel` starts at
`n0` and satisfies `fuel = n0 - i` whenever the loop continues, so the
exhaustion branch is unreachable. -/
def unfoldItemsLoop (n0 : Nat) (path_length : Int) :
    Nat → Nat → List (String × Value) → Bool →
    Except PyErr (List (String × Value) × Bool)
  | fuel, i, pd, did =>
    if pd.length ≠ n0 then
      .error (.runtimeError "dictionary changed size during iteration")
    else if i < pd.length then
      match fuel with
      | 0 => .error (.runtimeError "loop fuel exhausted")
      | fuel' + 1 => do
        let kv := pd.getD i ("", .vnone)
        let r ← unfoldProcessEntry pd path_length kv.1 kv.2 did
        unfoldItemsLoop n0 path_length fuel' (i + 1) r.1 r.2
    else .ok (pd, did)

/-- The partial-list finalisation pass (lines 104-109): every entry whose
path has the decremented length and whose value is a list is replaced by
`process_list(_complete_partial_list(value))` (`process_list` is the
identity; the commented-out dict branch does nothing).  Only existing keys
are assigned, so the dict size is unchanged and the iteration is safe. -/
def unfoldFinalize (path_length : Int) :
    List (String × Value) → Except PyErr (List (String × Value))
  | [] => .ok []
  | (path, value) :: rest => do
    let sp ← split path false
    let entry ←
      if (sp.length : Int) = path_length then
        match value with
        | .vlist l => do
          let pairs ← asPairs l
          let completed ← _completePartialList pairs
          .ok ((path, Value.vlist completed) : String × Value)
        | _ => .ok ((path, value) : String × Value)
      else .ok ((path, value) : String × Value)
    let t ← unfoldFinalize path_length rest
    .ok (entry :: t)

/-- The `while tuple(path_dict.keys()) != ('',)` loop (lines 76-109); the
source's own `safety_limit` counter is the structural fuel, raising
`RuntimeError('hit loop safety limit')` at zero exactly as the source
does. -/
def unfoldLoop (path_length : Int) :
    Nat → List (String × Value) → Except PyErr (List (String × Value))
  | safety, pd =>
    if pd.map Prod.fst = [""] then .ok pd
    else
      match safety with
      | 0 => .error (.runtimeError "hit loop safety limit")
      | safety' + 1 => do
        let r ← unfoldItemsLoop pd.length path_length pd.length 0 pd false
        if r.2 then unfoldLoop path_length safety' r.1
        else do
          let pd2 ← unfoldFinalize (path_length - 1) r.1
          unfoldLoop (path_length - 1) safety' pd2

/-- `unfold_path_dict(paths, processor=UnfoldProcessor(), root_path=True)`
(`folding.py` lines 46-113): reject an empty table and a non-collection
pre-existing root, compute `max(len(split(path)) for path in paths)`, and
run the loop; the result is the final path-dict (root at key `''`). -/
def unfold_path_dict (paths : List (String × Value)) :
    Except PyErr (List (String × Value)) := do
  if paths = [] then .error (.validationError "paths cannot be empty")
  else
    let root := (dictLookup paths "").getD (.vlist [])
    if !root.isCollection then
      .error (.validationError "existing root path must be list/dict")
    else do
      let lengths ← paths.mapM (fun kv => do
        let sp ← split kv.1 false
        pure ((sp.length : Int)))
      match lengths with
      | [] => .error (.valueError "max() arg is an empty sequence")
      | x :: rest => unfoldLoop (rest.foldl max x) 1000000 paths

example : fold_path_dict (.vdict []) "" = .ok [] := by decide
example : fold_path_dict (.vlist []) "" = .ok [] := by decide
example : fold_path_dict (.vint 5) "" =
    .error (.validationError "root must be list/dict") := by decide
example : fold_path_dict (.vdict [("a", .vint 5)]) "" = .ok [("a", .vint 5)] := by decide
example : fold_path_dict (.vdict [("a", .vdict [("b", .vlist [.vint 1, .vint 2])])]) "" =
    .ok [("a.b[0]", .vint 1), ("a.b[1]", .vint 2)] := by decide
example : fold_path_dict (.vdict [("a", .vlist [])]) "" = .ok [] := by decide
example : fold_path_dict (.vlist [.vint 7]) "pre" = .ok [("pre[0]", .vint 7)] := by decide
example : unfold_path_dict [] = .error (.validationError "paths cannot be empty") := by decide
example : unfold_path_dict [("", .vint 3)] =
    .error (.validationError "existing root path must be list/dict") := by decide
example : unfold_path_dict [("", .vdict [])] = .ok [("", .vdict [])] := by decide
example : unfold_path_dict [("", .vlist [])] = .ok [("", .vlist [])] := by decide
example : unfold_path_dict [("a", .vint 5)] =
    .error (.runtimeError "dictionary changed size during iteration") := by decide
example : _completePartialList [(0, .vstr "a")] = .ok [.vstr "a"] := by decide
example : _completePartialList [(1, .vstr "b"), (0, .vstr "a")] =
    .ok [.vstr "a", .vstr "b"] := by decide
example : _completePartialList [(1, .vstr "x")] =
    .error (.validationError "did not find index 0") := by decide
example : _completePartialList [(0, .vstr "x"), (2, .vstr "y")] =
    .error (.validationError "did not find index 1") := by decide
example : _completePartialList [(2, .vstr "x"), (0, .vstr "y")] =
    .error (.validationError "did not find index 1") := by decide
example : _completePartialList [(2, .vstr "x"), (2, .vstr "y")] =
    .error (.validationError "did not find index 0") := by decide

/-- C2 (code bug): the claimed round trip `unfold(fold(T)) == T` fails on
this code for every non-empty tree, because `unfold_path_dict` inserts
parent keys with `setdefault` while iterating `path_dict.items()` (and
never removes processed entries).  Already for the leaf-consistent tree
`{'a': 5}`: the fold is `{'a': 5}`, and unfolding it raises
`RuntimeError('dictionary changed size during iteration')` instead of
rebuilding the tree the library's own `test_unfold_path_dict_single`
expects. -/
theorem C2_unfold_fold_runtime_error :
    fold_path_dict (.vdict [("a", .vint 5)]) "" = .ok [("a", .vint 5)] ∧
    unfold_path_dict [("a", .vint 5)] =
      .error (.runtimeError "dictionary changed size during iteration") := by
  refine ⟨by decide, by decide⟩

/-- C7 (code bug): unfolding `{"a.b": 5, "a[0]": 6}` is claimed to raise
the inconsistent-types `ValidationError` naming parent `"a"`, but the code
crashes first with `RuntimeError('dictionary changed size during
iteration')` when `setdefault` inserts `"a"` mid-iteration.  The second
conjunct shows the intended `ValidationError` is produced by the same
entry-processing step when the parent entry already exists. -/
theorem C7_unfold_inconsistent_types :
    unfold_path_dict [("a.b", .vint 5), ("a[0]", .vint 6)] =
      .error (.runtimeError "dictionary changed size during iteration") ∧
    unfoldProcessEntry [("a[0]", .vint 6), ("a", .vdict [("b", .vint 5)])] 2
        "a[0]" (.vint 6) true =
      .error (.validationError
        "inconsistent types: parent 'a' has type dict key/index 0") := by
  refine ⟨by decide, by decide⟩

/-- C8 (code bug): unfolding `{"[0]": "x", "[2]": "y"}` is claimed to fail
for missing index 1, but the code crashes first with
`RuntimeError('dictionary changed size during iteration')` when
`setdefault` inserts the root partial list mid-iteration.  The helper the
claim describes, `_complete_partial_list`, does report
`did not find index 1` for those pairs. -/
theorem C8_unfold_missing_index :
    unfold_path_dict [("[0]", .vstr "x"), ("[2]", .vstr "y")] =
      .error (.runtimeError "dictionary changed size during iteration") ∧
    _completePartialList [(0, .vstr "x"), (2, .vstr "y")] =
      .error (.validationError "did not find index 1") := by
  refine ⟨by decide, by decide⟩

mutual

theorem _fold_leaves_only {at_path : List PathPart} {v : Value}
    {pd : List (String × Value)} (h : _fold_path_dict at_path v = .ok pd) :
    ∀ kv ∈ pd, kv.2.isCollection = false := by
  cases v with
  | vlist xs =>
    simp only [_fold_path_dict] at h
    exact _foldList_leaves_only h
  | vdict m =>
    simp only [_fold_path_dict] at h
    exact _foldDict_leaves_only h
  | vint n =>
    simp only [_fold_path_dict] at h
    split at h
    · simp only [Except.ok.injEq] at h
      subst h
      intro kv hkv
      simp only [List.mem_singleton] at hkv
      subst hkv
      rfl
    · simp at h
  | vstr s =>
    simp only [_fold_path_dict] at h
    split at h
    · simp only [Except.ok.injEq] at h
      subst h
      intro kv hkv
      simp only [List.mem_singleton] at hkv
      subst hkv
      rfl
    · simp at h
  | vnone =>
    simp only [_fold_path_dict] at h
    split at h
    · simp only [Except.ok.injEq] at h
      subst h
      intro kv hkv
      simp only [List.mem_singleton] at hkv
      subst hkv
      rfl
    · simp at h
  | vpair a b =>
    simp only [_fold_path_dict] at h
    split at h
    · simp only [Except.ok.injEq] at h
      subst h
      intro kv hkv
      simp only [List.mem_singleton] at hkv
      subst hkv
      rfl
    · simp at h

theorem _foldList_leaves_only {at_path : List PathPart} {i : Int} {xs : List Value}
    {pd : List (String × Value)} (h : _foldList at_path i xs = .ok pd) :
    ∀ kv ∈ pd, kv.2.isCollection = false := by
  match xs with
  | [] =>
    simp only [_foldList, Except.ok.injEq] at h
    subst h
    simp
  | x :: rest =>
    simp only [_foldList] at h
    match h1 : _fold_path_dict (at_path ++ [.int i]) x with
    | .error e => rw [h1] at h; simp at h
    | .ok pdh =>
      rw [h1] at h
      simp only [exceptBind_ok] at h
      match h2 : _foldList at_path (i + 1) rest with
      | .error e => rw [h2] at h; simp at h
      | .ok pdt =>
        rw [h2] at h
        simp only [exceptBind_ok, Except.ok.injEq] at h
        subst h
        intro kv hkv
        rcases List.mem_append.mp hkv with hkv | hkv
        · exact _fold_leaves_only h1 kv hkv
        · exact _foldList_leaves_only h2 kv hkv

theorem _foldDict_leaves_only {at_path : List PathPart} {m : List (String × Value)}
    {pd : List (String × Value)} (h : _foldDict at_path m = .ok pd) :
    ∀ kv ∈ pd, kv.2.isCollection = false := by
  match m with
  | [] =>
    simp only [_foldDict, Except.ok.injEq] at h
    subst h
    simp
  | e :: rest =>
    simp only [_foldDict] at h
    match h1 : _fold_path_dict (at_path ++ [.str e.1]) e.2 with
    | .error er => rw [h1] at h; simp at h
    | .ok pdh =>
      rw [h1] at h
      simp only [exceptBind_ok] at h
      match h2 : _foldDict at_path rest with
      | .error er => rw [h2] at h; simp at h
      | .ok pdt =>
        rw [h2] at h
        simp only [exceptBind_ok, Except.ok.injEq] at h
        subst h
        intro kv hkv
        rcases List.mem_append.mp hkv with hkv | hkv
        · exact _fold_leaves_only h1 kv hkv
        · exact _foldDict_leaves_only h2 kv hkv

end

/-- C10: `fold_path_dict` records entries only for leaf values - folding
`{}` or `[]` gives the empty path-dict, every value in any fold result is
a non-collection (so empty containers nested in a tree contribute no entry
at all), and unfolding the fold of an empty root consequently raises
`ValidationError('paths cannot be empty')`. -/
theorem C10_fold_records_only_leaves :
    fold_path_dict (.vdict []) "" = .ok [] ∧
    fold_path_dict (.vlist []) "" = .ok [] ∧
    unfold_path_dict [] = .error (.validationError "paths cannot be empty") ∧
    (∀ (T : Value) (pd : List (String × Value)), fold_path_dict T "" = .ok pd →
      ∀ kv ∈ pd, kv.2.isCollection = false) := by
  refine ⟨by decide, by decide, by decide, ?_⟩
  intro T pd h kv hkv
  have h' : _fold_path_dict [] T = .ok pd := h
  exact _fold_leaves_only h' kv hkv

/-- Witness for C10's quantified conjunct: the single entry of
`fold_path_dict({'a': 5, 'b': []})` has a non-collection value. -/
theorem C10_fold_records_only_leaves_witness :
    (Value.vint 5).isCollection = false :=
  C10_fold_records_only_leaves.2.2.2 (.vdict [("a", .vint 5), ("b", .vlist [])])
    [("a", .vint 5)] (by decide) ("a", .vint 5) (by decide)

end Datapath
